import Mathlib

/-!
# Gas-token swaps (`core/swaps.go`, `core/swap_utils.go`)

A shallow embedding of the fee-token helpers of the `core` package:
binding resolution (`GetGasToken`), the two read-only queries
(`GetTokenBalanceOf`, `GetAmountsIn`), the swap payload builder
(`NewETHSwapData`) and the development genesis.

Go values are embedded as follows.

* `[]byte` is `List (Fin 256)`; `common.Address` and `common.Hash` are byte
  lists of length 20 and 32.
* `*big.Int` is `Int` (a nil pointer is excluded by the type).
* `(T, error)` results are pairs `T × Option GoError`; a Go panic is `none`
  of an outer `Option`.
* Package-level constants that live in other files of the package
  (`WETHAddress`, `RouterAddress`, `MaxBalanceOfGas`, ...) are fields of
  `SwapConsts`, a parameter of every function that reads them.
-/

namespace Swaps

/-! ## Bytes, addresses, hashes -/

abbrev Byte := Fin 256

abbrev Bytes := List Byte

/-- Go type `common.Address`, a `[20]byte` array. -/
abbrev Address := { b : Bytes // b.length = 20 }

/-- Go type `common.Hash`, a `[32]byte` array. -/
abbrev Hash := { b : Bytes // b.length = 32 }

/-- Zero value `common.Address{}`. -/
def zeroAddress : Address := ⟨List.replicate 20 0, by simp⟩

/-- Zero value `common.Hash{}`. -/
def zeroHash : Hash := ⟨List.replicate 32 0, by simp⟩

/-- Go builtin `copy(dst, src)`: the first `min (len dst) (len src)` elements
of `dst` are overwritten with those of `src`; the result is the new `dst`. -/
def copy (dst src : Bytes) : Bytes :=
  src.take (min dst.length src.length) ++ dst.drop (min dst.length src.length)

/-- Go `bytes.Equal`. -/
def bytesEqual (a b : Bytes) : Bool := decide (a = b)

/-- Modelled from the spec: `SetBytes` of `common.Address` and `common.Hash`
(package `common` is not under src/) for an array of `n` bytes, the reading of
a "left-padded" value (§3, §6): an input longer than `n` bytes is cropped from
the left (`b = b[len(b)-n:]`), then right-aligned in a zeroed array
(`copy(a[n-len(b):], b)`). -/
def setBytes (n : Nat) (b : Bytes) : Bytes :=
  (List.replicate n (0 : Byte)).take
      (n - (if b.length > n then b.drop (b.length - n) else b).length) ++
    copy ((List.replicate n (0 : Byte)).drop
      (n - (if b.length > n then b.drop (b.length - n) else b).length))
      (if b.length > n then b.drop (b.length - n) else b)

/-- Modelled from the spec: `common.BytesToAddress` (package `common` is not
under src/), the decoding of a stored "32-byte left-padded" address (§3, §6):
`var a Address; a.SetBytes(b); return a`. -/
def BytesToAddress (b : Bytes) : Address :=
  ⟨setBytes 20 b, by
    simp only [setBytes, copy, List.length_append, List.length_take, List.length_drop,
      List.length_replicate]
    omega⟩

/-- Modelled from the spec: `common.BytesToHash` (package `common` is not under
src/), the "32-byte left-padded" encoding of §3 and §6:
`var h Hash; h.SetBytes(b); return h`. -/
def BytesToHash (b : Bytes) : Hash :=
  ⟨setBytes 32 b, by
    simp only [setBytes, copy, List.length_append, List.length_take, List.length_drop,
      List.length_replicate]
    omega⟩

/-! ## Package constants defined outside the two files -/

/-- The package-level constants the two files read but do not define. -/
structure SwapConsts where
  FactoryAddress : Address
  WETHAddress : Address
  RouterAddress : Address
  GasTokenBinderAddress : Address
  MaxBalanceOfGas : Nat
  MaxGetAmountsInGas : Nat
  FactoryCodes : Bytes
  WETHCodes : Bytes
  RouterCodes : Bytes
  GasTokenBinderCodes : Bytes
  /-- Constant `params.InitialBaseFee`. -/
  InitialBaseFee : Int

/-! ## Binding registry -/

/-- Go interface `State`: the one-method storage reader. -/
structure State where
  GetState : Address → Hash → Hash

/-- The storage key of `GetGasToken`:
`storageHash := common.Hash{}; copy(storageHash[:20], c[:])`. -/
def storageKey (c : Address) : Hash :=
  ⟨copy (zeroHash.val.take 20) c.val ++ zeroHash.val.drop 20, by
    have h := c.property
    simp only [copy, zeroHash, List.length_append, List.length_take, List.length_drop,
      List.length_replicate]
    omega⟩

/-- Function `GetGasToken` of `core/swaps.go`. -/
def GetGasToken (k : SwapConsts) (st : State) (c : Address) : Address × Bool :=
  let storageHash := storageKey c
  let bind := st.GetState k.GasTokenBinderAddress storageHash
  let addressZero : Address := zeroAddress
  let b := BytesToAddress bind.val
  (b, !bytesEqual b.val addressZero.val)

/-- Modelled from the spec: a write of one storage word of a contract (the
Binder's own code is not under src/); every other word is unchanged. -/
def State.write (st : State) (contract : Address) (key value : Hash) : State :=
  ⟨fun a h => if a = contract ∧ h = key then value else st.GetState a h⟩

/-- Bindings written through the Binder's storage layout, oldest first: each
pair `(account, word)` stores `word` at the key `GetGasToken` derives for
`account`. -/
def writeBindings (k : SwapConsts) (st : State) : List (Address × Hash) → State
  | [] => st
  | (a, w) :: rest => writeBindings k (st.write k.GasTokenBinderAddress (storageKey a) w) rest

/-! ## Package `accounts/abi`, as far as the three fixed interfaces use it -/

/-- Go `error` values that reach the callers of this file. -/
inductive GoError
  /-- An error returned by the contract call (revert, out of gas, ...) -/
  | vm (code : Nat)
  /-- Error "abi: attempting to unmarshall an empty string while arguments are expected" -/
  | abiEmptyOutput
  /-- Error "abi: cannot marshal in to go type: length insufficient" -/
  | abiLengthInsufficient
  /-- Error "abi: cannot marshal in to go slice: offset would go over slice boundary" -/
  | abiOffsetOverBoundary
  /-- Errors "abi offset larger than int64" and "abi: length larger than int64" -/
  | abiLargerThanInt64
  /-- Errors "argument count mismatch" and the type check failures of `Pack` -/
  | abiPack
  /-- The `fmt.Errorf("invalid unpacked data")` of this file -/
  | invalidUnpackedData
  deriving DecidableEq

/-- Go slice expression `b[lo:hi]`, for `lo ≤ hi ≤ len b`. -/
def slice (b : Bytes) (lo hi : Nat) : Bytes := (b.drop lo).take (hi - lo)

/-- Go `new(big.Int).SetBytes(b)`: the big-endian unsigned integer of `b`. -/
def bigEndian (b : Bytes) : Nat := b.foldl (fun acc x => acc * 256 + x.val) 0

/-- The `len` low-order bytes of `n`, big-endian. -/
def paddedBigBytes : Nat → Nat → Bytes
  | 0, _ => []
  | len + 1, n => paddedBigBytes len (n / 256) ++ [⟨n % 256, Nat.mod_lt _ (by decide)⟩]

/-- Modelled from the spec: `math.U256Bytes` (package `common/math` is not
under src/), the 32-byte big-endian word of an "unsigned 256-bit integer"
(§4.2): the argument is reduced modulo `2^256`. -/
def U256Bytes (n : Int) : Bytes := paddedBigBytes 32 (n % 2 ^ 256).toNat

/-- Modelled from the spec: `packNum` of package `abi` (not under src/) for a
`*big.Int` or an `int`. -/
def packNum (n : Int) : Bytes := U256Bytes n

/-- Modelled from the spec: `common.LeftPadBytes` (package `common` is not
under src/), the "32-byte left-padded" encoding of §6. -/
def LeftPadBytes (b : Bytes) (l : Nat) : Bytes :=
  if l ≤ b.length then b
  else
    (List.replicate l (0 : Byte)).take (l - b.length) ++
      copy ((List.replicate l (0 : Byte)).drop (l - b.length)) b

/-- The ABI types of the three interfaces of §6. -/
inductive AbiType
  | uint256
  | address
  | uint256Slice
  | addressSlice
  deriving DecidableEq

/-- Go values packed and unpacked for these types: `*big.Int`,
`common.Address`, `[]*big.Int`, `[]common.Address`. -/
inductive AbiValue
  | uint (v : Int)
  | addr (a : Address)
  | uints (vs : List Int)
  | addrs (vs : List Address)
  deriving DecidableEq

/-- Modelled from the spec: `isDynamicType` of package `abi`. -/
def isDynamicType : AbiType → Bool
  | .uint256 => false
  | .address => false
  | .uint256Slice => true
  | .addressSlice => true

/-- Modelled from the spec: `getTypeSize` of package `abi`; every type here
takes one 32-byte head word. -/
def getTypeSize : AbiType → Nat
  | _ => 32

/-- Modelled from the spec: `Type.pack` of package `abi` (not under src/): a
number is one word, an address is left-padded to one word, a slice is its
length followed by its packed elements; a value of another Go type fails the
type check. -/
def AbiType.pack : AbiType → AbiValue → Except GoError Bytes
  | .uint256, .uint v => .ok (packNum v)
  | .address, .addr a => .ok (LeftPadBytes a.val 32)
  | .uint256Slice, .uints vs => .ok (packNum vs.length ++ (vs.map packNum).flatten)
  | .addressSlice, .addrs vs =>
    .ok (packNum vs.length ++ (vs.map fun a => LeftPadBytes a.val 32).flatten)
  | _, _ => .error .abiPack

/-- The loop of `Arguments.Pack`: static values and the offsets of dynamic
ones go to `ret`, dynamic values to `variableInput`, appended at the end. -/
def packLoop : List (AbiType × AbiValue) → Bytes → Bytes → Nat → Except GoError Bytes
  | [], ret, variableInput, _ => .ok (ret ++ variableInput)
  | (t, a) :: rest, ret, variableInput, inputOffset =>
    match t.pack a with
    | .error e => .error e
    | .ok packed =>
      if isDynamicType t then
        packLoop rest (ret ++ packNum inputOffset) (variableInput ++ packed)
          (inputOffset + packed.length)
      else
        packLoop rest (ret ++ packed) variableInput inputOffset

/-- Modelled from the spec: `Arguments.Pack` of package `abi` (not under
src/), the standard head/tail argument encoding. -/
def argumentsPack (types : List AbiType) (args : List AbiValue) : Except GoError Bytes :=
  if args.length ≠ types.length then .error .abiPack
  else packLoop (types.zip args) [] [] ((types.map getTypeSize).sum)

/-- A parsed method of an `abi.ABI`: its 4-byte ID and its argument types. -/
structure Method where
  ID : Bytes
  Inputs : List AbiType
  Outputs : List AbiType

/-- Modelled from the spec: `ABI.Pack` of package `abi` (not under src/) for
the one method of the interface: the method ID followed by the packed
arguments. -/
def Method.Pack (m : Method) (args : List AbiValue) : Except GoError Bytes :=
  match argumentsPack m.Inputs args with
  | .error e => .error e
  | .ok arguments => .ok (m.ID ++ arguments)

/-- Modelled from the spec: `ReadInteger` of package `abi` for `uint256`. -/
def ReadInteger (b : Bytes) : Int := (bigEndian b : Nat)

/-- Modelled from the spec: `lengthPrefixPointsTo` of package `abi` (not
under src/): the word at `index` is the offset of a length word; the result
is the start of the elements and their number. `BitLen() > 63` is
`2^63 ≤ n`. -/
def lengthPrefixPointsTo (index : Nat) (output : Bytes) : Except GoError (Nat × Nat) :=
  let bigOffsetEnd := bigEndian (slice output index (index + 32)) + 32
  let outputLength := output.length
  if bigOffsetEnd > outputLength then .error .abiOffsetOverBoundary
  else if 2 ^ 63 ≤ bigOffsetEnd then .error .abiLargerThanInt64
  else
    let offsetEnd := bigOffsetEnd
    let lengthBig := bigEndian (slice output (offsetEnd - 32) offsetEnd)
    let totalSize := bigOffsetEnd + lengthBig
    if 2 ^ 63 ≤ totalSize then .error .abiLargerThanInt64
    else if totalSize > outputLength then .error .abiLengthInsufficient
    else .ok (bigOffsetEnd, lengthBig)

/-- The loop of `forEachUnpack` for `uint256` elements: `size` words read from
byte `i` on, each after the bounds check of `toGoType`. -/
def unpackUints (output : Bytes) : Nat → Nat → Except GoError (List Int)
  | _, 0 => .ok []
  | i, size + 1 =>
    if i + 32 > output.length then .error .abiLengthInsufficient
    else
      match unpackUints output (i + 32) size with
      | .error e => .error e
      | .ok rest => .ok (ReadInteger (slice output i (i + 32)) :: rest)

/-- The loop of `forEachUnpack` for `address` elements. -/
def unpackAddrs (output : Bytes) : Nat → Nat → Except GoError (List Address)
  | _, 0 => .ok []
  | i, size + 1 =>
    if i + 32 > output.length then .error .abiLengthInsufficient
    else
      match unpackAddrs output (i + 32) size with
      | .error e => .error e
      | .ok rest => .ok (BytesToAddress (slice output i (i + 32)) :: rest)

/-- Modelled from the spec: `forEachUnpack` of package `abi` (not under
src/) for a slice type. -/
def forEachUnpack (t : AbiType) (output : Bytes) (start size : Nat) : Except GoError AbiValue :=
  if start + 32 * size > output.length then .error .abiOffsetOverBoundary
  else
    match t with
    | .uint256Slice =>
      match unpackUints output start size with
      | .error e => .error e
      | .ok vs => .ok (.uints vs)
    | .addressSlice =>
      match unpackAddrs output start size with
      | .error e => .error e
      | .ok vs => .ok (.addrs vs)
    | _ => .error .abiPack

/-- Modelled from the spec: `toGoType` of package `abi` (not under src/):
the value of type `t` whose head word is at byte `index` of `output`. -/
def toGoType (index : Nat) (t : AbiType) (output : Bytes) : Except GoError AbiValue :=
  if index + 32 > output.length then .error .abiLengthInsufficient
  else
    match t with
    | .uint256 => .ok (.uint (ReadInteger (slice output index (index + 32))))
    | .address => .ok (.addr (BytesToAddress (slice output index (index + 32))))
    | .uint256Slice | .addressSlice =>
      match lengthPrefixPointsTo index output with
      | .error e => .error e
      | .ok (begin, length) => forEachUnpack t (output.drop begin) 0 length

/-- The loop of `Arguments.UnpackValues`: argument number `index` has its
head word at byte `index * 32`. -/
def unpackValuesLoop (data : Bytes) : Nat → List AbiType → Except GoError (List AbiValue)
  | _, [] => .ok []
  | index, t :: rest =>
    match toGoType (index * 32) t data with
    | .error e => .error e
    | .ok marshalledValue =>
      match unpackValuesLoop data (index + 1) rest with
      | .error e => .error e
      | .ok retval => .ok (marshalledValue :: retval)

/-- Modelled from the spec: `Arguments.Unpack` of package `abi` (not under
src/): empty data is an error when arguments are expected. -/
def argumentsUnpack (types : List AbiType) (data : Bytes) : Except GoError (List AbiValue) :=
  if data.length = 0 then
    if types.length ≠ 0 then .error .abiEmptyOutput else .ok []
  else unpackValuesLoop data 0 types

/-! ## The three fixed interfaces

Each function parses its JSON interface with `abi.JSON` and panics on a parse
error; the three strings are constants that parse, so the parsed value is
given directly. The method ID is the first four bytes of the Keccak-256 hash
of the signature (package `crypto` is not under src/). -/

/-- Parsed `balanceOfABI`: `balanceOf(address) -> uint256`. -/
def balanceOfFunc : Method :=
  ⟨[0x70, 0xa0, 0x82, 0x31], [.address], [.uint256]⟩

/-- Parsed `getAmounsInABI`: `getAmountsIn(uint256,address[]) -> uint256[]`. -/
def getAmounsInFunc : Method :=
  ⟨[0x1f, 0x00, 0xca, 0x74], [.uint256, .addressSlice], [.uint256Slice]⟩

/-- Parsed `swapABI`:
`swapTokensForExactETH(uint256,uint256,address[],address,uint256) -> uint256[]`. -/
def swapFunc : Method :=
  ⟨[0x4a, 0x25, 0xd9, 0x4a], [.uint256, .uint256, .addressSlice, .address, .uint256],
    [.uint256Slice]⟩

/-! ## State database and contract calls -/

/-- The observable account state: balances and contract storage. -/
structure World where
  balance : Address → Nat
  storage : Address → Hash → Hash

/-- Modelled from the spec: the state database behind `evm.StateDB` (package
`core/state` is not under src/) with its "ephemeral transactional
checkpoints" (§3 Query snapshot): the current world, the stack of valid
revisions (identifier and the world saved at that point, oldest first) and
the next free identifier. -/
structure StateDB where
  world : World
  validRevisions : List (Nat × World)
  nextRevisionId : Nat

/-- Modelled from the spec: `StateDB.Snapshot` (not under src/): "acquire a
checkpoint"; returns its fresh identifier. -/
def StateDB.Snapshot (s : StateDB) : Nat × StateDB :=
  (s.nextRevisionId,
    { world := s.world
      validRevisions := s.validRevisions ++ [(s.nextRevisionId, s.world)]
      nextRevisionId := s.nextRevisionId + 1 })

/-- Modelled from the spec: `StateDB.RevertToSnapshot` (not under src/):
"rolled back"; the revision is looked up as `sort.Search` does on the
increasing identifiers (the first one not below `revid`), the world saved
under it is restored and that revision and all later ones are dropped. An
identifier that is not a valid revision is a Go panic (`none`). -/
def StateDB.RevertToSnapshot (s : StateDB) (revid : Nat) : Option StateDB :=
  let idx := s.validRevisions.findIdx (fun r => decide (r.1 ≥ revid))
  match s.validRevisions.get? idx with
  | none => none
  | some r =>
    if r.1 ≠ revid then none
    else some { world := r.2, validRevisions := s.validRevisions.take idx,
                nextRevisionId := s.nextRevisionId }

/-- The invariant of the revision stack: identifiers increase along the stack
and are below the next free identifier. -/
def StateDB.WellFormed (s : StateDB) : Prop :=
  s.validRevisions.Pairwise (fun a b => a.1 < b.1) ∧
    ∀ r ∈ s.validRevisions, r.1 < s.nextRevisionId

/-- Modelled from the spec: what the code run by a contract call does to the
state database (the interpreter and the deployed contracts are not under
src/): it writes balances and storage words, and it runs nested call frames,
each inside a snapshot of its own that is reverted when the frame fails. -/
inductive CallTrace
  | done
  | setBalance (a : Address) (v : Nat) (rest : CallTrace)
  | setState (a : Address) (key value : Hash) (rest : CallTrace)
  | frame (body : CallTrace) (reverted : Bool) (rest : CallTrace)

/-- One balance write. -/
def World.setBalance (w : World) (a : Address) (v : Nat) : World :=
  { balance := fun x => if x = a then v else w.balance x, storage := w.storage }

/-- One storage write. -/
def World.setState (w : World) (a : Address) (key value : Hash) : World :=
  { balance := w.balance
    storage := fun x h => if x = a ∧ h = key then value else w.storage x h }

/-- The effect of a call trace on the state database. -/
def CallTrace.run : CallTrace → StateDB → Option StateDB
  | .done, s => some s
  | .setBalance a v rest, s => rest.run { s with world := s.world.setBalance a v }
  | .setState a key value rest, s => rest.run { s with world := s.world.setState a key value }
  | .frame body reverted rest, s =>
    match body.run s.Snapshot.2 with
    | none => none
    | some s1 =>
      if reverted then
        match s1.RevertToSnapshot s.Snapshot.1 with
        | none => none
        | some s2 => rest.run s2
      else rest.run s1

/-- What a contract call hands back: return data, left-over gas, error, and
what it did to the state while it ran. -/
structure CallOutcome where
  ret : Bytes
  leftOverGas : Nat
  err : Option GoError
  trace : CallTrace

/-- Go type `vm.EVM` as far as this file uses it: the state database and
`SystemStaticCall(caller, addr, input, gas)`. The method is not under src/;
its behaviour is an arbitrary function of the world it runs on and of its
arguments. -/
structure EVM where
  StateDB : StateDB
  SystemStaticCall : World → Address → Address → Bytes → Nat → CallOutcome

/-! ## The two queries and the payload builder -/

/-- Function `GetTokenBalanceOf` of `core/swaps.go`. The deferred `RevertToSnapshot`
runs on every path after `Snapshot`, also when the function panics. -/
def GetTokenBalanceOf (k : SwapConsts) (evm : EVM) (token caller : Address) :
    Option ((Int × Option GoError) × EVM) :=
  match balanceOfFunc.Pack [.addr caller] with
  | .error err => some ((0, some err), evm)
  | .ok input =>
    let snap := evm.StateDB.Snapshot.1
    let out := evm.SystemStaticCall evm.StateDB.Snapshot.2.world caller token input
      k.MaxBalanceOfGas
    match out.trace.run evm.StateDB.Snapshot.2 with
    | none => none
    | some s1 =>
      let result : Option (Int × Option GoError) :=
        match out.err with
        | some err => some (0, some err)
        | none =>
          match argumentsUnpack [.uint256] out.ret with
          | .error err => some (0, some err)
          | .ok [] => some (0, some .invalidUnpackedData)
          | .ok (.uint v :: _) => some (v, none)
          | .ok (_ :: _) => none
      match s1.RevertToSnapshot snap with
      | none => none
      | some s2 =>
        match result with
        | none => none
        | some r => some (r, { evm with StateDB := s2 })

/-- Function `GetAmountsIn` of `core/swaps.go`. -/
def GetAmountsIn (k : SwapConsts) (evm : EVM) (token caller : Address) (value : Int) :
    Option ((Int × Option GoError) × EVM) :=
  let path : List Address := [] ++ [token, k.WETHAddress]
  match getAmounsInFunc.Pack [.uint value, .addrs path] with
  | .error err => some ((0, some err), evm)
  | .ok input =>
    let snap := evm.StateDB.Snapshot.1
    let out := evm.SystemStaticCall evm.StateDB.Snapshot.2.world caller k.RouterAddress input
      k.MaxGetAmountsInGas
    match out.trace.run evm.StateDB.Snapshot.2 with
    | none => none
    | some s1 =>
      let result : Int × Option GoError :=
        match out.err with
        | some err => (0, some err)
        | none =>
          match argumentsUnpack [.uint256Slice] out.ret with
          | .error err => (0, some err)
          | .ok [] => (0, some .invalidUnpackedData)
          | .ok (.uints [] :: _) => (0, some .invalidUnpackedData)
          | .ok (.uints (v0 :: _) :: _) => (v0, none)
          | .ok (_ :: _) => (0, some .invalidUnpackedData)
      match s1.RevertToSnapshot snap with
      | none => none
      | some s2 => some (result, { evm with StateDB := s2 })

/-- Function `NewETHSwapData` of `core/swaps.go` (and, word for word, of
`core/swap_utils.go`); a `Pack` error is a Go panic (`none`). -/
def NewETHSwapData (k : SwapConsts) (amountOut amountInMax : Int) (token toAddr : Address)
    (deadline : Int) : Option Bytes :=
  let path : List Address := [] ++ [token, k.WETHAddress]
  match swapFunc.Pack [.uint amountOut, .uint amountInMax, .addrs path, .addr toAddr, .uint deadline]
    with
  | .error _ => none
  | .ok data => some data

/-- Function `NewETHSwapData` of `core/swap_utils.go`, the same statements as in
`core/swaps.go`. -/
def SwapUtils.NewETHSwapData (k : SwapConsts) (amountOut amountInMax : Int)
    (token toAddr : Address) (deadline : Int) : Option Bytes :=
  let path : List Address := [] ++ [token, k.WETHAddress]
  match swapFunc.Pack [.uint amountOut, .uint amountInMax, .addrs path, .addr toAddr, .uint deadline]
    with
  | .error _ => none
  | .ok data => some data

/-! ## Binding resolution of `core/swap_utils.go` -/

/-- The storage key of `GetBindToken`:
`storageHash := common.Hash{}; copy(storageHash[:20], c[:])`. -/
def SwapUtils.storageKey (c : Address) : Hash :=
  ⟨copy (zeroHash.val.take 20) c.val ++ zeroHash.val.drop 20, by
    have h := c.property
    simp only [copy, zeroHash, List.length_append, List.length_take, List.length_drop,
      List.length_replicate]
    omega⟩

/-- Function `GetBindToken` of `core/swap_utils.go`. -/
def SwapUtils.GetBindToken (k : SwapConsts) (st : State) (c : Address) : Address × Bool :=
  let storageHash := SwapUtils.storageKey c
  let bind := st.GetState k.GasTokenBinderAddress storageHash
  let addressZero : Address := zeroAddress
  let b := BytesToAddress bind.val
  (b, bytesEqual b.val addressZero.val)

/-! ## Development genesis -/

/-- A Go map as its lookup: `get key` is `some v` when the map holds `v`
under `key`, and `none` when it has no entry for `key`. -/
structure GoMap (K V : Type) where
  get : K → Option V

/-- The empty map (also the `nil` map, and `make(map[K]V, 0)`). -/
def GoMap.empty {K V : Type} : GoMap K V := ⟨fun _ => none⟩

/-- Go assignment `m[key] = value`: the entry for `key` is set or replaced. -/
def GoMap.set {K V : Type} [DecidableEq K] (m : GoMap K V) (key : K) (value : V) : GoMap K V :=
  ⟨fun x => if x = key then some value else m.get x⟩

/-- A Go map literal with the given entries, evaluated in source order: with
equal keys the later entry replaces the earlier one. -/
def GoMap.literal {K V : Type} [DecidableEq K] (entries : List (K × V)) : GoMap K V :=
  entries.foldl (fun m e => m.set e.1 e.2) GoMap.empty

/-- Go type `params.CliqueConfig`. -/
structure CliqueConfig where
  Period : Nat
  Epoch : Nat
  deriving DecidableEq

/-- Go type `params.ChainConfig` (declared outside src/), with the fields the
two literals name; a `*big.Int` that may be `nil` is an `Option Int`, and
`*EthashConfig`, a pointer to an empty struct, is an `Option Unit`. -/
structure ChainConfig where
  ChainID : Option Int
  HomesteadBlock : Option Int
  DAOForkBlock : Option Int
  DAOForkSupport : Bool
  EIP150Block : Option Int
  EIP150Hash : Hash
  EIP155Block : Option Int
  EIP158Block : Option Int
  ByzantiumBlock : Option Int
  ConstantinopleBlock : Option Int
  PetersburgBlock : Option Int
  IstanbulBlock : Option Int
  MuirGlacierBlock : Option Int
  BerlinBlock : Option Int
  LondonBlock : Option Int
  ArrowGlacierBlock : Option Int
  GrayGlacierBlock : Option Int
  MergeNetsplitBlock : Option Int
  ShanghaiBlock : Option Int
  CancunBlock : Option Int
  TerminalTotalDifficulty : Option Int
  TerminalTotalDifficultyPassed : Bool
  Ethash : Option Unit
  Clique : Option CliqueConfig
  deriving DecidableEq

/-- The fork-activation block numbers of a chain configuration, in the order
of the record. -/
def ChainConfig.forkBlocks (c : ChainConfig) : List (Option Int) :=
  [c.HomesteadBlock, c.DAOForkBlock, c.EIP150Block, c.EIP155Block, c.EIP158Block,
    c.ByzantiumBlock, c.ConstantinopleBlock, c.PetersburgBlock, c.IstanbulBlock,
    c.MuirGlacierBlock, c.BerlinBlock, c.LondonBlock, c.ArrowGlacierBlock, c.GrayGlacierBlock,
    c.MergeNetsplitBlock, c.ShanghaiBlock, c.CancunBlock]

/-- Go type `GenesisAccount` (declared outside src/), with the fields the
literals name; a field a literal leaves out has its zero value. -/
structure GenesisAccount where
  Code : Bytes := []
  Storage : GoMap Hash Hash := GoMap.empty
  Balance : Option Int := none

/-- Go type `Genesis` (declared outside src/), with the fields the two
literals name. -/
structure Genesis where
  Config : ChainConfig
  ExtraData : Bytes
  GasLimit : Nat
  BaseFee : Option Int
  Difficulty : Option Int
  Alloc : GoMap Address GenesisAccount

/-- Function `DefaulSwapDevGenesisBlock` of `core/swaps.go`. The hex strings
of `common.HexToAddress` and `hexutil.MustDecode` are written as the bytes
they decode to; the extra data is 32 zero bytes, a 20-byte signer address and
65 zero bytes. -/
def DefaulSwapDevGenesisBlock (k : SwapConsts) : Genesis :=
  let config : ChainConfig :=
    { ChainID := some 1130, HomesteadBlock := some 0, DAOForkBlock := none,
      DAOForkSupport := false, EIP150Block := some 0, EIP150Hash := zeroHash,
      EIP155Block := some 0, EIP158Block := some 0, ByzantiumBlock := some 0,
      ConstantinopleBlock := some 0, PetersburgBlock := some 0, IstanbulBlock := some 0,
      MuirGlacierBlock := some 0, BerlinBlock := some 0, LondonBlock := some 0,
      ArrowGlacierBlock := none, GrayGlacierBlock := none, MergeNetsplitBlock := none,
      ShanghaiBlock := none, CancunBlock := none, TerminalTotalDifficulty := none,
      TerminalTotalDifficultyPassed := false, Ethash := none,
      Clique := some { Period := 0, Epoch := 30000 } }
  let config : ChainConfig := { config with Clique := some { Period := 3, Epoch := 30000 } }
  let routerStorage : GoMap Hash Hash :=
    GoMap.literal
      [(BytesToHash [0], BytesToHash k.FactoryAddress.val),
        (BytesToHash [1], BytesToHash k.WETHAddress.val)]
  let faucet := BytesToAddress
    [0xf1, 0x65, 0x8c, 0x60, 0x87, 0x08, 0x17, 0x26, 0x55, 0xa8, 0xe7, 0x0a, 0x16, 0x24, 0xc2,
      0x9f, 0x95, 0x6e, 0xe6, 0x3d]
  let faucet1 := BytesToAddress
    [0x99, 0xf5, 0xa6, 0x20, 0x38, 0x4a, 0x5a, 0x53, 0x03, 0x20, 0xfc, 0x0b, 0xe2, 0xaf, 0x3b,
      0x69, 0xd7, 0x63, 0xed, 0x4f]
  let faucet2 := BytesToAddress
    [0xd8, 0x3c, 0x37, 0xed, 0xf2, 0x5d, 0xce, 0x7f, 0xd9, 0x65, 0xa8, 0xe7, 0xaa, 0x0f, 0x22,
      0xf5, 0xbb, 0xfa, 0x91, 0xca]
  let a : Int := 1000000000000000000000000000
  { Config := config
    ExtraData := List.replicate 32 0 ++
      [0xac, 0xd5, 0x34, 0xb5, 0x44, 0xe5, 0xe8, 0x3e, 0x09, 0xe1, 0x39, 0x4c, 0xec, 0xfb, 0xfa,
        0xf6, 0xfc, 0xa6, 0x1e, 0x0a] ++ List.replicate 65 0
    GasLimit := 10485760
    BaseFee := some k.InitialBaseFee
    Difficulty := some 0
    Alloc := GoMap.literal
      [(faucet, { Balance := some a }),
        (faucet1, { Balance := some a }),
        (faucet2, { Balance := some a }),
        (k.FactoryAddress, { Balance := some 0, Code := k.FactoryCodes }),
        (k.WETHAddress, { Balance := some 0, Code := k.WETHCodes }),
        (k.RouterAddress, { Balance := some 0, Code := k.RouterCodes, Storage := routerStorage }),
        (k.GasTokenBinderAddress, { Balance := some 0, Code := k.GasTokenBinderCodes })] }

/-- Function `DefaulSwapDevGenesisBlock` of `core/swap_utils.go`. -/
def SwapUtils.DefaulSwapDevGenesisBlock (k : SwapConsts) : Genesis :=
  let config : ChainConfig :=
    { ChainID := some 14298360, HomesteadBlock := some 0, DAOForkBlock := none,
      DAOForkSupport := false, EIP150Block := some 0, EIP150Hash := zeroHash,
      EIP155Block := some 0, EIP158Block := some 0, ByzantiumBlock := some 0,
      ConstantinopleBlock := some 0, PetersburgBlock := some 0, IstanbulBlock := some 0,
      MuirGlacierBlock := some 0, BerlinBlock := some 0, LondonBlock := some 0,
      ArrowGlacierBlock := none, GrayGlacierBlock := none, MergeNetsplitBlock := none,
      ShanghaiBlock := none, CancunBlock := none, TerminalTotalDifficulty := none,
      TerminalTotalDifficultyPassed := false, Ethash := none,
      Clique := some { Period := 0, Epoch := 30000 } }
  let config : ChainConfig := { config with Clique := some { Period := 5, Epoch := 30000 } }
  let routerStorage : GoMap Hash Hash := GoMap.empty
  let routerStorage := routerStorage.set (BytesToHash [0]) (BytesToHash k.FactoryAddress.val)
  let routerStorage := routerStorage.set (BytesToHash [1]) (BytesToHash k.WETHAddress.val)
  let faucet := BytesToAddress
    [0xf1, 0x65, 0x8c, 0x60, 0x87, 0x08, 0x17, 0x26, 0x55, 0xa8, 0xe7, 0x0a, 0x16, 0x24, 0xc2,
      0x9f, 0x95, 0x6e, 0xe6, 0x3d]
  let a : Int := 100000000000000000000000
  { Config := config
    ExtraData := List.replicate 32 0 ++
      [0xeb, 0x68, 0x47, 0x71, 0xf5, 0x30, 0x00, 0x3b, 0x5e, 0xa2, 0x7d, 0xcd, 0x72, 0x7d, 0x75,
        0xfc, 0xb7, 0x66, 0x58, 0x22] ++ List.replicate 65 0
    GasLimit := 10485760
    BaseFee := some k.InitialBaseFee
    Difficulty := some 0
    Alloc := GoMap.literal
      [(faucet, { Balance := some a }),
        (k.FactoryAddress, { Balance := some 0, Code := k.FactoryCodes }),
        (k.WETHAddress, { Balance := some 0, Code := k.WETHCodes }),
        (k.RouterAddress, { Balance := some 0, Code := k.RouterCodes, Storage := routerStorage }),
        (k.GasTokenBinderAddress, { Balance := some 0, Code := k.GasTokenBinderCodes })] }

/-- The storage key `0x00..00`, slot 0. -/
def slotZero : Hash := ⟨List.replicate 32 0, by simp⟩

/-- The storage key `0x00..01`, slot 1. -/
def slotOne : Hash := ⟨List.replicate 31 0 ++ [1], by simp⟩

/-- The address of the local variable `faucet` of both genesis functions. -/
def faucet : Address := BytesToAddress
  [0xf1, 0x65, 0x8c, 0x60, 0x87, 0x08, 0x17, 0x26, 0x55, 0xa8, 0xe7, 0x0a, 0x16, 0x24, 0xc2,
    0x9f, 0x95, 0x6e, 0xe6, 0x3d]

/-- The address of the local variable `faucet1` of `core/swaps.go`. -/
def faucet1 : Address := BytesToAddress
  [0x99, 0xf5, 0xa6, 0x20, 0x38, 0x4a, 0x5a, 0x53, 0x03, 0x20, 0xfc, 0x0b, 0xe2, 0xaf, 0x3b,
    0x69, 0xd7, 0x63, 0xed, 0x4f]

/-- The address of the local variable `faucet2` of `core/swaps.go`. -/
def faucet2 : Address := BytesToAddress
  [0xd8, 0x3c, 0x37, 0xed, 0xf2, 0x5d, 0xce, 0x7f, 0xd9, 0x65, 0xa8, 0xe7, 0xaa, 0x0f, 0x22,
    0xf5, 0xbb, 0xfa, 0x91, 0xca]

/-! ## Sample values -/

/-- A concrete address `hi 00 .. 00 lo` used to evaluate the definitions. -/
def sampleAddress (hi lo : Byte) : Address := ⟨hi :: List.replicate 18 0 ++ [lo], by simp⟩

/-- A concrete instantiation of the package constants used to evaluate the
definitions; the theorems hold for every instantiation. -/
def sampleConsts : SwapConsts where
  FactoryAddress := sampleAddress 0xf0 1
  WETHAddress := sampleAddress 0xf0 2
  RouterAddress := sampleAddress 0xf0 3
  GasTokenBinderAddress := sampleAddress 0xf0 4
  MaxBalanceOfGas := 100000
  MaxGetAmountsInGas := 200000
  FactoryCodes := [0x60, 0x80]
  WETHCodes := [0x60, 0x60]
  RouterCodes := [0x60, 0x40]
  GasTokenBinderCodes := [0x60, 0x20]
  InitialBaseFee := 1000000000

/-- A state reader whose every storage word is zero. -/
def zeroState : State := ⟨fun _ _ => zeroHash⟩

/-- A world in which every balance is 5 and every storage word is zero. -/
def sampleWorld : World := ⟨fun _ => 5, fun _ _ => zeroHash⟩

/-- A state database with one older revision, number 3. -/
def sampleStateDB : StateDB := ⟨sampleWorld, [(3, ⟨fun _ => 1, fun _ _ => zeroHash⟩)], 4⟩

/-- A call trace that writes a balance and a storage word, at top level and
inside nested frames, one committed and one reverted. -/
def sampleTrace (a : Address) : CallTrace :=
  .setBalance a 7
    (.frame (.setState a zeroHash (BytesToHash [1]) .done) false
      (.frame (.setBalance a 8 .done) true (.setBalance a 4 .done)))

/-- An EVM whose every call writes to the state and succeeds with the
encoding of the list `[500, 1000000000000000000]` as return data. -/
def mockRouterEVM : EVM :=
  ⟨sampleStateDB, fun _ caller _ _ _ =>
    ⟨[packNum 32, packNum 2, packNum 500, packNum 1000000000000000000].flatten, 0, none,
      sampleTrace caller⟩⟩

/-- An EVM whose every call writes to the state and then fails. -/
def failingEVM : EVM :=
  ⟨sampleStateDB, fun _ caller _ _ _ => ⟨[], 0, some (.vm 1), sampleTrace caller⟩⟩

/-- An EVM whose every call succeeds with the one word 77 as return data. -/
def mockTokenEVM : EVM :=
  ⟨sampleStateDB, fun _ caller _ _ _ => ⟨packNum 77, 0, none, sampleTrace caller⟩⟩

/-- An EVM that fails with code 7 when called by `0xaa00..01` at `target`
with gas limit `gas`, and with code 1 on every other call. -/
def probeEVM (target : Address) (gas : Nat) : EVM :=
  ⟨sampleStateDB, fun _ caller addr _ g =>
    if addr = target ∧ g = gas ∧ caller = sampleAddress 0xaa 1 then
      ⟨[], 0, some (.vm 7), sampleTrace caller⟩
    else ⟨[], 0, some (.vm 1), .done⟩⟩

/-- A state reader whose every storage word has twelve `0xff` bytes followed
by twenty zero bytes. -/
def highBytesState : State :=
  ⟨fun _ _ => ⟨List.replicate 12 0xff ++ List.replicate 20 0, by simp⟩⟩

/-! ## Theorems -/

theorem copy_length (dst src : Bytes) : (copy dst src).length = dst.length := by
  simp only [copy, List.length_append, List.length_take, List.length_drop]
  omega

theorem copy_same_length (dst src : Bytes) (h : dst.length = src.length) : copy dst src = src := by
  simp [copy, h]

theorem setBytes_length (n : Nat) (b : Bytes) : (setBytes n b).length = n := by
  simp only [setBytes, copy, List.length_append, List.length_take, List.length_drop,
    List.length_replicate]
  omega

/-- An input no longer than the array is right-aligned behind zero bytes. -/
theorem setBytes_of_le (n : Nat) (b : Bytes) (h : b.length ≤ n) :
    setBytes n b = List.replicate (n - b.length) 0 ++ b := by
  have h1 : ¬ b.length > n := by omega
  simp only [setBytes, h1, if_false]
  rw [copy_same_length]
  · simp
  · simp
    omega

/-- An input longer than the array keeps its last `n` bytes. -/
theorem setBytes_of_gt (n : Nat) (b : Bytes) (h : n < b.length) :
    setBytes n b = b.drop (b.length - n) := by
  have h1 : b.length > n := h
  have h2 : (b.drop (b.length - n)).length = n := by
    simp only [List.length_drop]
    omega
  simp only [setBytes, h1, if_true, h2, Nat.sub_self, List.take_zero, List.nil_append,
    List.drop_zero]
  rw [copy_same_length]
  simp [h2]

theorem storageKey_val (c : Address) :
    (storageKey c).val = c.val ++ List.replicate 12 0 := by
  have h := c.property
  simp only [storageKey, zeroHash]
  rw [copy_same_length]
  · simp
  · simp [h]

theorem BytesToAddress_hash (w : Hash) : (BytesToAddress w.val).val = w.val.drop 12 := by
  have h := w.property
  simp only [BytesToAddress]
  rw [setBytes_of_gt 20 w.val (by omega), h]

theorem storageKey_injective (a c : Address) (h : storageKey a = storageKey c) : a = c := by
  have h1 : (storageKey a).val = (storageKey c).val := by rw [h]
  rw [storageKey_val, storageKey_val] at h1
  exact Subtype.ext (List.append_cancel_right h1)

theorem bytesEqual_zero_iff (b : Address) :
    bytesEqual b.val zeroAddress.val = true ↔ b = zeroAddress := by
  simp only [bytesEqual, decide_eq_true_eq]
  exact ⟨fun h => Subtype.ext h, fun h => by rw [h]⟩

theorem GetGasToken_fst (k : SwapConsts) (st : State) (c : Address) :
    (GetGasToken k st c).1 =
      BytesToAddress (st.GetState k.GasTokenBinderAddress (storageKey c)).val := rfl

theorem GetGasToken_snd (k : SwapConsts) (st : State) (c : Address) :
    (GetGasToken k st c).2 = !bytesEqual (GetGasToken k st c).1.val zeroAddress.val := rfl

theorem BytesToAddress_leftPadded (t : Address) (w : Hash)
    (h : w.val = List.replicate 12 0 ++ t.val) : BytesToAddress w.val = t := by
  apply Subtype.ext
  rw [BytesToAddress_hash, h]
  simp

theorem BytesToAddress_zeroHash : BytesToAddress zeroHash.val = zeroAddress := by
  apply BytesToAddress_leftPadded
  simp [zeroHash, zeroAddress, ← List.replicate_add]

theorem writeBindings_other (k : SwapConsts) (ws : List (Address × Hash)) (st : State)
    (c : Address) (hc : c ∉ ws.map Prod.fst) :
    (writeBindings k st ws).GetState k.GasTokenBinderAddress (storageKey c) =
      st.GetState k.GasTokenBinderAddress (storageKey c) := by
  induction ws generalizing st with
  | nil => rfl
  | cons p rest ih =>
    obtain ⟨a, w⟩ := p
    simp only [List.map_cons, List.mem_cons, not_or] at hc
    simp only [writeBindings]
    rw [ih _ hc.2]
    have hne : storageKey c ≠ storageKey a := fun h => hc.1 (storageKey_injective c a h)
    simp [State.write, hne]

/-- C1: `GetGasToken` returns `(b, bound)` where `b` is the low-order 20 bytes
(bytes 12..31) of the word the state reader holds for the Binder at the key
derived for the account, and `bound` is true exactly when `b` is not the
all-zero address. -/
theorem GetGasToken_decodes_low_bytes (k : SwapConsts) (st : State) (c : Address) :
    (GetGasToken k st c).1.val =
        (st.GetState k.GasTokenBinderAddress (storageKey c)).val.drop 12 ∧
      ((GetGasToken k st c).2 = true ↔ (GetGasToken k st c).1 ≠ zeroAddress) := by
  refine ⟨?_, ?_⟩
  · rw [GetGasToken_fst, BytesToAddress_hash]
  · rw [GetGasToken_snd, Bool.not_eq_true', ← Bool.not_eq_true, bytesEqual_zero_iff]

/-- C2: if the Binder holds a non-zero token address `t` left-padded to 32
bytes at the key derived for account `a`, then `GetGasToken` returns exactly
`(t, true)`. -/
theorem GetGasToken_written_binding (k : SwapConsts) (st : State) (a t : Address)
    (ht : t ≠ zeroAddress)
    (hw : (st.GetState k.GasTokenBinderAddress (storageKey a)).val =
      List.replicate 12 0 ++ t.val) :
    GetGasToken k st a = (t, true) := by
  have h1 : (GetGasToken k st a).1 = t := by
    rw [GetGasToken_fst]
    exact BytesToAddress_leftPadded t _ hw
  have h2 : (GetGasToken k st a).2 = true := by
    rw [GetGasToken_snd, h1, Bool.not_eq_true', ← Bool.not_eq_true, bytesEqual_zero_iff]
    exact ht
  exact Prod.ext h1 h2

theorem GetGasToken_written_binding_witness :
    sampleAddress 0xbb 2 ≠ zeroAddress ∧
      ((zeroState.write sampleConsts.GasTokenBinderAddress (storageKey (sampleAddress 0xaa 1))
          (BytesToHash (sampleAddress 0xbb 2).val)).GetState
          sampleConsts.GasTokenBinderAddress (storageKey (sampleAddress 0xaa 1))).val =
        List.replicate 12 0 ++ (sampleAddress 0xbb 2).val ∧
      GetGasToken sampleConsts
          (zeroState.write sampleConsts.GasTokenBinderAddress (storageKey (sampleAddress 0xaa 1))
            (BytesToHash (sampleAddress 0xbb 2).val))
          (sampleAddress 0xaa 1) =
        (sampleAddress 0xbb 2, true) :=
  ⟨by decide, by decide,
    GetGasToken_written_binding sampleConsts _ (sampleAddress 0xaa 1) (sampleAddress 0xbb 2)
      (by decide) (by decide)⟩

/-- C3: starting from a state whose Binder storage is all zero and writing
words only at the keys derived for the accounts of a list, every account not
in the list resolves to the all-zero address and `false`; the key derivation
is injective. -/
theorem GetGasToken_unwritten_unbound (k : SwapConsts) (st : State)
    (ws : List (Address × Hash)) (c : Address)
    (hzero : ∀ key, st.GetState k.GasTokenBinderAddress key = zeroHash)
    (hc : c ∉ ws.map Prod.fst) :
    GetGasToken k (writeBindings k st ws) c = (zeroAddress, false) ∧
      (∀ a b : Address, storageKey a = storageKey b → a = b) := by
  refine ⟨?_, storageKey_injective⟩
  have h1 : (GetGasToken k (writeBindings k st ws) c).1 = zeroAddress := by
    rw [GetGasToken_fst, writeBindings_other k ws st c hc, hzero]
    exact BytesToAddress_zeroHash
  have h2 : (GetGasToken k (writeBindings k st ws) c).2 = false := by
    rw [GetGasToken_snd, h1]
    rfl
  exact Prod.ext h1 h2

theorem GetGasToken_unwritten_unbound_witness :
    (∀ key, zeroState.GetState sampleConsts.GasTokenBinderAddress key = zeroHash) ∧
      sampleAddress 0xcc 3 ∉
        [(sampleAddress 0xaa 1, BytesToHash (sampleAddress 0xbb 2).val)].map Prod.fst ∧
      GetGasToken sampleConsts
          (writeBindings sampleConsts zeroState
            [(sampleAddress 0xaa 1, BytesToHash (sampleAddress 0xbb 2).val)])
          (sampleAddress 0xcc 3) =
        (zeroAddress, false) :=
  ⟨fun _ => rfl, by decide,
    (GetGasToken_unwritten_unbound sampleConsts zeroState
      [(sampleAddress 0xaa 1, BytesToHash (sampleAddress 0xbb 2).val)] (sampleAddress 0xcc 3)
      (fun _ => rfl) (by decide)).1⟩

/-- C4 (as stated, refuted): for the account `0xaa00..0001` the key read by
`GetGasToken` is not the address left-padded to 32 bytes: its low-order 20
bytes are not the account address and its 12 high-order bytes are not all
zero. -/
theorem storageKey_not_left_padded :
    (storageKey (sampleAddress 0xaa 1)).val ≠
        List.replicate 12 0 ++ (sampleAddress 0xaa 1).val ∧
      (storageKey (sampleAddress 0xaa 1)).val.drop 12 ≠ (sampleAddress 0xaa 1).val ∧
      (storageKey (sampleAddress 0xaa 1)).val.take 12 ≠ List.replicate 12 0 := by
  decide

/-- C4 (amended): the key read by `GetGasToken` holds the account address in
its first 20 bytes (bytes 0..19, the high-order end of the big-endian word)
and zero in the remaining 12 low-order bytes: the address is right-padded. -/
theorem storageKey_right_padded (c : Address) :
    (storageKey c).val = c.val ++ List.replicate 12 0 ∧
      (storageKey c).val.take 20 = c.val ∧
      (storageKey c).val.drop 20 = List.replicate 12 0 := by
  have h := c.property
  rw [storageKey_val]
  refine ⟨rfl, ?_, ?_⟩
  · rw [List.take_left' h]
  · rw [List.drop_left' h]


/-! ### Snapshots -/

theorem findIdx_skip {α : Type} (p : α → Bool) (base rest : List α)
    (h : ∀ r ∈ base, p r = false) :
    (base ++ rest).findIdx p = base.length + rest.findIdx p := by
  induction base with
  | nil => simp
  | cons x xs ih =>
    have hx : p x = false := h x (List.mem_cons_self _ _)
    have hxs : ∀ r ∈ xs, p r = false := fun r hr => h r (List.mem_cons_of_mem _ hr)
    simp only [List.cons_append, List.findIdx_cons, hx, cond_false, ih hxs, List.length_cons]
    omega

/-- Reverting to a revision whose identifier is above all older ones restores
the world saved with it and drops it and everything newer. -/
theorem RevertToSnapshot_of_split (s : StateDB) (base ext : List (Nat × World)) (id : Nat)
    (w : World) (hs : s.validRevisions = base ++ (id, w) :: ext)
    (hbase : ∀ r ∈ base, r.1 < id) :
    s.RevertToSnapshot id =
      some { world := w, validRevisions := base, nextRevisionId := s.nextRevisionId } := by
  have hidx : s.validRevisions.findIdx (fun r => decide (r.1 ≥ id)) = base.length := by
    rw [hs, findIdx_skip]
    · simp [List.findIdx_cons]
    · intro r hr
      have := hbase r hr
      simp only [ge_iff_le, decide_eq_false_iff_not, not_le]
      exact this
  have hget : s.validRevisions.get? base.length = some (id, w) := by
    rw [hs, List.get?_eq_getElem?, List.getElem?_append_right (le_refl _)]
    simp
  simp only [StateDB.RevertToSnapshot, hidx, hget]
  rw [hs]
  simp

/-- What a call trace leaves of the revision stack: the revisions that were
valid before are still there, unchanged, under whatever the trace added. -/
theorem CallTrace.run_extends (t : CallTrace) :
    ∀ s : StateDB, s.WellFormed →
      ∃ s1, t.run s = some s1 ∧ s1.WellFormed ∧ s.nextRevisionId ≤ s1.nextRevisionId ∧
        ∃ ext, s1.validRevisions = s.validRevisions ++ ext ∧
          ∀ r ∈ ext, s.nextRevisionId ≤ r.1 := by
  induction t with
  | done =>
    intro s hs
    exact ⟨s, rfl, hs, le_refl _, [], by simp, by simp⟩
  | setBalance a v rest ih =>
    intro s hs
    exact ih { s with world := s.world.setBalance a v } hs
  | setState a key value rest ih =>
    intro s hs
    exact ih { s with world := s.world.setState a key value } hs
  | frame body reverted rest ihb ihr =>
    intro s hs
    have hsnap : s.Snapshot.2.WellFormed := by
      refine ⟨?_, ?_⟩
      · simp only [StateDB.Snapshot, List.pairwise_append, List.pairwise_cons, List.mem_singleton,
          List.not_mem_nil, false_implies, implies_true, List.Pairwise.nil, and_true, true_and]
        refine ⟨hs.1, ?_⟩
        intro a ha b hb
        rw [hb]
        exact hs.2 a ha
      · intro r hr
        simp only [StateDB.Snapshot, List.mem_append, List.mem_singleton] at hr
        simp only [StateDB.Snapshot]
        rcases hr with hr | hr
        · exact Nat.lt_succ_of_lt (hs.2 r hr)
        · rw [hr]
          exact Nat.lt_succ_self _
    obtain ⟨s1, hrun1, hwf1, hnext1, ext1, hext1, hge1⟩ := ihb s.Snapshot.2 hsnap
    simp only [CallTrace.run, hrun1]
    cases reverted with
    | false =>
      obtain ⟨s2, hrun2, hwf2, hnext2, ext2, hext2, hge2⟩ := ihr s1 hwf1
      refine ⟨s2, by simpa using hrun2, hwf2, ?_, (s.nextRevisionId, s.world) :: ext1 ++ ext2, ?_, ?_⟩
      · have : s.nextRevisionId ≤ s.Snapshot.2.nextRevisionId := Nat.le_succ _
        omega
      · rw [hext2, hext1]
        simp [StateDB.Snapshot]
      · intro r hr
        simp only [List.cons_append, List.mem_cons, List.mem_append] at hr
        have h0 : s.nextRevisionId + 1 = s.Snapshot.2.nextRevisionId := rfl
        rcases hr with hr | hr | hr
        · rw [hr]
        · have := hge1 r hr
          omega
        · have := hge2 r hr
          omega
    | true =>
      have hrev : s1.RevertToSnapshot s.Snapshot.1 =
          some { world := s.world, validRevisions := s.validRevisions,
                 nextRevisionId := s1.nextRevisionId } := by
        apply RevertToSnapshot_of_split s1 s.validRevisions ext1 s.nextRevisionId s.world
        · rw [hext1]
          simp [StateDB.Snapshot]
        · exact hs.2
      have hwf : StateDB.WellFormed (StateDB.mk s.world s.validRevisions s1.nextRevisionId) := by
        refine ⟨hs.1, ?_⟩
        intro r hr
        have := hs.2 r hr
        have h0 : s.nextRevisionId + 1 = s.Snapshot.2.nextRevisionId := rfl
        show r.1 < s1.nextRevisionId
        omega
      obtain ⟨s2, hrun2, hwf2, hnext2, ext2, hext2, hge2⟩ := ihr _ hwf
      refine ⟨s2, by simpa [hrev] using hrun2, hwf2, ?_, ext2, hext2, ?_⟩
      · have h0 : s.nextRevisionId + 1 = s.Snapshot.2.nextRevisionId := rfl
        have : s1.nextRevisionId ≤ s2.nextRevisionId := hnext2
        omega
      · intro r hr
        have := hge2 r hr
        have h0 : s.nextRevisionId + 1 = s.Snapshot.2.nextRevisionId := rfl
        have h1 : s1.nextRevisionId ≤ r.1 := this
        omega

/-- Snapshot, any call trace, revert: the function's own revert finds its
revision and restores the world and the revision stack of before. -/
theorem snapshot_run_revert (s : StateDB) (hs : s.WellFormed) (t : CallTrace) :
    ∃ s1 s2, t.run s.Snapshot.2 = some s1 ∧ s1.RevertToSnapshot s.Snapshot.1 = some s2 ∧
      s2.world = s.world ∧ s2.validRevisions = s.validRevisions ∧
      s.nextRevisionId ≤ s2.nextRevisionId := by
  have hsnap : s.Snapshot.2.WellFormed := by
    refine ⟨?_, ?_⟩
    · simp only [StateDB.Snapshot, List.pairwise_append, List.pairwise_cons, List.mem_singleton,
        List.not_mem_nil, false_implies, implies_true, List.Pairwise.nil, and_true, true_and]
      refine ⟨hs.1, ?_⟩
      intro a ha b hb
      rw [hb]
      exact hs.2 a ha
    · intro r hr
      simp only [StateDB.Snapshot, List.mem_append, List.mem_singleton] at hr
      simp only [StateDB.Snapshot]
      rcases hr with hr | hr
      · exact Nat.lt_succ_of_lt (hs.2 r hr)
      · rw [hr]
        exact Nat.lt_succ_self _
  obtain ⟨s1, hrun1, _, hnext1, ext1, hext1, _⟩ := CallTrace.run_extends t s.Snapshot.2 hsnap
  have hrev : s1.RevertToSnapshot s.Snapshot.1 =
      some { world := s.world, validRevisions := s.validRevisions,
             nextRevisionId := s1.nextRevisionId } := by
    apply RevertToSnapshot_of_split s1 s.validRevisions ext1 s.nextRevisionId s.world
    · rw [hext1]
      simp [StateDB.Snapshot]
    · exact hs.2
  refine ⟨s1, _, hrun1, hrev, rfl, rfl, ?_⟩
  have h0 : s.nextRevisionId + 1 = s.Snapshot.2.nextRevisionId := rfl
  show s.nextRevisionId ≤ s1.nextRevisionId
  omega


/-! ### Words -/

theorem paddedBigBytes_length (len n : Nat) : (paddedBigBytes len n).length = len := by
  induction len generalizing n with
  | zero => rfl
  | succ m ih => simp [paddedBigBytes, ih]

theorem bigEndian_append_singleton (b : Bytes) (x : Byte) :
    bigEndian (b ++ [x]) = bigEndian b * 256 + x.val := by
  simp [bigEndian, List.foldl_append]

theorem bigEndian_paddedBigBytes (len n : Nat) :
    bigEndian (paddedBigBytes len n) = n % 256 ^ len := by
  induction len generalizing n with
  | zero => simp [paddedBigBytes, bigEndian, Nat.mod_one]
  | succ m ih =>
    rw [paddedBigBytes, bigEndian_append_singleton, ih, pow_succ', Nat.mod_mul]
    simp only []
    omega

theorem packNum_length (v : Int) : (packNum v).length = 32 :=
  paddedBigBytes_length 32 _

theorem bigEndian_packNum (v : Int) : bigEndian (packNum v) = (v % 2 ^ 256).toNat := by
  have h0 : (0 : Int) ≤ v % 2 ^ 256 := Int.emod_nonneg _ (by norm_num)
  have h1 : v % 2 ^ 256 < 2 ^ 256 := Int.emod_lt_of_pos _ (by norm_num)
  have h2 : (v % 2 ^ 256).toNat < 2 ^ 256 := by
    rw [Int.toNat_lt h0]
    exact_mod_cast h1
  simp only [packNum, U256Bytes]
  rw [bigEndian_paddedBigBytes]
  have h3 : (256 : Nat) ^ 32 = 2 ^ 256 := by norm_num
  rw [h3, Nat.mod_eq_of_lt h2]

theorem bigEndian_packNum_nat (n : Nat) (h : n < 2 ^ 256) : bigEndian (packNum (n : Int)) = n := by
  rw [bigEndian_packNum]
  have h1 : ((n : Int)) % 2 ^ 256 = n := by
    apply Int.emod_eq_of_lt (Int.natCast_nonneg n)
    exact_mod_cast h
  rw [h1, Int.toNat_natCast]

/-- Reading back a packed number gives the number modulo `2^256`. -/
theorem ReadInteger_packNum (v : Int) : ReadInteger (packNum v) = v % 2 ^ 256 := by
  have h0 : (0 : Int) ≤ v % 2 ^ 256 := Int.emod_nonneg _ (by norm_num)
  simp only [ReadInteger]
  rw [bigEndian_packNum, Int.toNat_of_nonneg h0]

theorem ReadInteger_packNum_of_range (v : Int) (h0 : 0 ≤ v) (h1 : v < 2 ^ 256) :
    ReadInteger (packNum v) = v := by
  rw [ReadInteger_packNum, Int.emod_eq_of_lt h0 h1]

theorem LeftPadBytes_address (a : Address) :
    LeftPadBytes a.val 32 = List.replicate 12 0 ++ a.val := by
  have h := a.property
  have h1 : ¬ (32 ≤ a.val.length) := by omega
  simp only [LeftPadBytes, h1, if_false]
  rw [copy_same_length]
  · simp [h]
  · simp [h]

theorem LeftPadBytes_address_length (a : Address) : (LeftPadBytes a.val 32).length = 32 := by
  rw [LeftPadBytes_address]
  simp [a.property]

theorem BytesToAddress_LeftPadBytes (a : Address) :
    BytesToAddress (LeftPadBytes a.val 32) = a := by
  apply Subtype.ext
  have h : (LeftPadBytes a.val 32).length = 32 := LeftPadBytes_address_length a
  simp only [BytesToAddress]
  rw [setBytes_of_gt 20 _ (by omega), h, LeftPadBytes_address]
  simp

/-- Word `i` of a sequence of 32-byte words. -/
theorem slice_flatten (ws : List Bytes) (hall : ∀ x ∈ ws, x.length = 32) (i : Nat) (w : Bytes)
    (hw : ws.get? i = some w) : slice ws.flatten (i * 32) (i * 32 + 32) = w := by
  induction ws generalizing i with
  | nil => simp at hw
  | cons x xs ih =>
    have hx : x.length = 32 := hall x (List.mem_cons_self _ _)
    have hxs : ∀ y ∈ xs, y.length = 32 := fun y hy => hall y (List.mem_cons_of_mem _ hy)
    cases i with
    | zero =>
      simp only [List.get?_cons_zero, Option.some.injEq] at hw
      subst hw
      simp only [slice, List.flatten_cons, Nat.zero_mul, List.drop_zero, Nat.zero_add,
        Nat.sub_zero]
      rw [List.take_left' hx]
    | succ j =>
      simp only [List.get?_cons_succ] at hw
      have := ih hxs j hw
      simp only [slice, List.flatten_cons] at this ⊢
      have h1 : (j + 1) * 32 = x.length + j * 32 := by omega
      have h2 : (j + 1) * 32 + 32 - (j + 1) * 32 = j * 32 + 32 - j * 32 := by omega
      rw [h2, h1, List.drop_append]
      exact this

theorem drop_flatten (ws : List Bytes) (hall : ∀ x ∈ ws, x.length = 32) (i : Nat) :
    ws.flatten.drop (i * 32) = (ws.drop i).flatten := by
  induction ws generalizing i with
  | nil => simp
  | cons x xs ih =>
    have hx : x.length = 32 := hall x (List.mem_cons_self _ _)
    have hxs : ∀ y ∈ xs, y.length = 32 := fun y hy => hall y (List.mem_cons_of_mem _ hy)
    cases i with
    | zero => simp
    | succ j =>
      have h1 : (j + 1) * 32 = x.length + j * 32 := by omega
      simp only [List.flatten_cons, List.drop_succ_cons]
      rw [h1, List.drop_append]
      exact ih hxs j

theorem flatten_length (ws : List Bytes) (hall : ∀ x ∈ ws, x.length = 32) :
    ws.flatten.length = ws.length * 32 := by
  induction ws with
  | nil => simp
  | cons x xs ih =>
    have hx : x.length = 32 := hall x (List.mem_cons_self _ _)
    have hxs : ∀ y ∈ xs, y.length = 32 := fun y hy => hall y (List.mem_cons_of_mem _ hy)
    simp only [List.flatten_cons, List.length_append, hx, ih hxs, List.length_cons]
    omega


/-! ### The swap payload -/

/-- Decoding eight 32-byte words laid out as the arguments of
`swapTokensForExactETH`: two numbers, the offset 160 of the path, an address,
a number, then the path's length 2 and its two elements. -/
theorem argumentsUnpack_swap_layout (w0 w1 w2 w3 w4 w5 w6 w7 : Bytes)
    (hall : ∀ x ∈ [w0, w1, w2, w3, w4, w5, w6, w7], x.length = 32)
    (hoff : bigEndian w2 = 160) (hcount : bigEndian w5 = 2) :
    argumentsUnpack [.uint256, .uint256, .addressSlice, .address, .uint256]
        [w0, w1, w2, w3, w4, w5, w6, w7].flatten =
      .ok [.uint (ReadInteger w0), .uint (ReadInteger w1),
        .addrs [BytesToAddress w6, BytesToAddress w7], .addr (BytesToAddress w3),
        .uint (ReadInteger w4)] := by
  have hlen := flatten_length _ hall
  have s0 := slice_flatten _ hall 0 w0 rfl
  have s1 := slice_flatten _ hall 1 w1 rfl
  have s2 := slice_flatten _ hall 2 w2 rfl
  have s3 := slice_flatten _ hall 3 w3 rfl
  have s4 := slice_flatten _ hall 4 w4 rfl
  have s5 := slice_flatten _ hall 5 w5 rfl
  have hdrop := drop_flatten _ hall 6
  have hall2 : ∀ x ∈ [w6, w7], x.length = 32 := by
    intro x hx
    apply hall
    simp only [List.mem_cons, List.mem_singleton, List.not_mem_nil, or_false] at hx ⊢
    tauto
  have hlen2 := flatten_length _ hall2
  have t0 := slice_flatten _ hall2 0 w6 rfl
  have t1 := slice_flatten _ hall2 1 w7 rfl
  generalize [w0, w1, w2, w3, w4, w5, w6, w7].flatten = data at *
  simp only [List.drop_succ_cons, List.drop_zero] at hdrop
  generalize [w6, w7].flatten = tail at *
  simp only [List.length_cons, List.length_nil] at hlen hlen2
  norm_num at hlen hlen2 s0 s1 s2 s3 s4 s5 t0 t1 hdrop
  have hl : lengthPrefixPointsTo 64 data = .ok (192, 2) := by
    simp only [lengthPrefixPointsTo]
    norm_num [s2, hoff, hlen, s5, hcount]
  simp only [argumentsUnpack, unpackValuesLoop, toGoType]
  norm_num [hlen, s0, s1, s3, s4, hl, forEachUnpack, hdrop, hlen2, unpackAddrs, t0, t1]


theorem bigEndian_packNum_160 : bigEndian (packNum 160) = 160 :=
  bigEndian_packNum_nat 160 (by norm_num)

theorem bigEndian_packNum_2 : bigEndian (packNum 2) = 2 :=
  bigEndian_packNum_nat 2 (by norm_num)

/-- The payload is the method ID followed by eight words. -/
theorem NewETHSwapData_words (k : SwapConsts) (amountOut amountInMax : Int)
    (token toAddr : Address) (deadline : Int) :
    NewETHSwapData k amountOut amountInMax token toAddr deadline =
      some (swapFunc.ID ++
        [packNum amountOut, packNum amountInMax, packNum 160, LeftPadBytes toAddr.val 32,
          packNum deadline, packNum 2, LeftPadBytes token.val 32,
          LeftPadBytes k.WETHAddress.val 32].flatten) := by
  simp [NewETHSwapData, Method.Pack, argumentsPack, packLoop, AbiType.pack, swapFunc,
    isDynamicType, getTypeSize]

theorem NewETHSwapData_decodes (k : SwapConsts) (amountOut amountInMax : Int)
    (token toAddr : Address) (deadline : Int) :
    ∃ data, NewETHSwapData k amountOut amountInMax token toAddr deadline = some data ∧
      argumentsUnpack swapFunc.Inputs (data.drop 4) =
        .ok [.uint (amountOut % 2 ^ 256), .uint (amountInMax % 2 ^ 256),
          .addrs [token, k.WETHAddress], .addr toAddr, .uint (deadline % 2 ^ 256)] := by
  refine ⟨_, NewETHSwapData_words k amountOut amountInMax token toAddr deadline, ?_⟩
  have hid : swapFunc.ID.length = 4 := rfl
  rw [List.drop_left' hid]
  have hall : ∀ x ∈ [packNum amountOut, packNum amountInMax, packNum 160,
      LeftPadBytes toAddr.val 32, packNum deadline, packNum 2, LeftPadBytes token.val 32,
      LeftPadBytes k.WETHAddress.val 32], x.length = 32 := by
    intro x hx
    simp only [List.mem_cons, List.mem_singleton, List.not_mem_nil, or_false] at hx
    rcases hx with h | h | h | h | h | h | h | h
    · rw [h, packNum_length]
    · rw [h, packNum_length]
    · rw [h, packNum_length]
    · rw [h, LeftPadBytes_address_length]
    · rw [h, packNum_length]
    · rw [h, packNum_length]
    · rw [h, LeftPadBytes_address_length]
    · rw [h, LeftPadBytes_address_length]
  have h := argumentsUnpack_swap_layout _ _ _ _ _ _ _ _ hall bigEndian_packNum_160
    bigEndian_packNum_2
  simp only [ReadInteger_packNum, BytesToAddress_LeftPadBytes] at h
  exact h


/-! ### Decoding return data -/

/-- A single `uint256` decodes exactly when the data holds one 32-byte word;
the value is the big-endian integer of the first word. -/
theorem argumentsUnpack_uint256 (ret : Bytes) :
    argumentsUnpack [.uint256] ret =
      if ret.length < 32 then
        .error (if ret.length = 0 then .abiEmptyOutput else .abiLengthInsufficient)
      else .ok [.uint (ReadInteger (ret.take 32))] := by
  by_cases h0 : ret.length = 0
  · simp [argumentsUnpack, h0]
  · by_cases h1 : ret.length < 32
    · have h2 : 32 > ret.length := h1
      simp [argumentsUnpack, unpackValuesLoop, toGoType, h0, h1, h2]
    · have h2 : ¬ 32 > ret.length := h1
      simp [argumentsUnpack, unpackValuesLoop, toGoType, h0, h1, h2, slice]

theorem toGoType_uint256Slice (index : Nat) (output : Bytes) (v : AbiValue)
    (h : toGoType index .uint256Slice output = .ok v) : ∃ vs, v = .uints vs := by
  simp only [toGoType, forEachUnpack] at h
  split at h
  · simp at h
  · split at h
    · simp at h
    · split at h
      · simp at h
      · split at h
        · simp at h
        · rename_i vs _
          simp only [Except.ok.injEq] at h
          exact ⟨vs, h.symm⟩

/-- A `uint256[]` decodes to one value, a list of integers. -/
theorem argumentsUnpack_uint256Slice (ret : Bytes) (vals : List AbiValue)
    (h : argumentsUnpack [.uint256Slice] ret = .ok vals) : ∃ vs, vals = [.uints vs] := by
  simp only [argumentsUnpack, unpackValuesLoop] at h
  split at h
  · simp at h
  · split at h
    · simp at h
    · rename_i v hv
      obtain ⟨vs, hvs⟩ := toGoType_uint256Slice _ _ _ hv
      simp only [Except.ok.injEq] at h
      exact ⟨vs, by rw [← h, hvs]⟩


theorem unpackUints_words (vs : List Int) :
    ∀ (pre : Bytes) (i : Nat), pre.length = i →
      unpackUints (pre ++ (vs.map packNum).flatten) i vs.length =
        .ok (vs.map fun v => v % 2 ^ 256) := by
  induction vs with
  | nil =>
    intro pre i _
    rfl
  | cons v rest ih =>
    intro pre i hi
    have hlen : ¬ (i + 32 > (pre ++ (List.map packNum (v :: rest)).flatten).length) := by
      simp only [List.map_cons, List.flatten_cons, List.length_append, hi, packNum_length]
      omega
    have hslice : slice (pre ++ (List.map packNum (v :: rest)).flatten) i (i + 32) = packNum v := by
      simp only [slice, List.map_cons, List.flatten_cons]
      rw [List.drop_left' hi]
      have : i + 32 - i = 32 := by omega
      rw [this, List.take_left' (packNum_length v)]
    have hrest := ih (pre ++ packNum v) (i + 32) (by simp [hi, packNum_length])
    have hassoc : pre ++ (List.map packNum (v :: rest)).flatten =
        (pre ++ packNum v) ++ (List.map packNum rest).flatten := by
      simp
    simp only [List.length_cons, unpackUints, hlen, if_false, hslice, ReadInteger_packNum]
    rw [hassoc, hrest]
    rfl

theorem bigEndian_packNum_32 : bigEndian (packNum 32) = 32 :=
  bigEndian_packNum_nat 32 (by norm_num)

/-- Decoding the encoding of a `uint256[]` value gives the list back, each
element reduced modulo `2^256`. -/
theorem argumentsUnpack_packed_uints (vs : List Int) (ret : Bytes)
    (hpack : argumentsPack [.uint256Slice] [.uints vs] = .ok ret)
    (hlen : ret.length < 2 ^ 63) :
    argumentsUnpack [.uint256Slice] ret = .ok [.uints (vs.map fun v => v % 2 ^ 256)] := by
  have hret : ret = [packNum 32, packNum vs.length].flatten ++ (vs.map packNum).flatten := by
    simp [argumentsPack, packLoop, AbiType.pack, isDynamicType, getTypeSize] at hpack
    rw [← hpack]
    simp
  have hall : ∀ x ∈ [packNum 32, packNum vs.length], x.length = 32 := by
    intro x hx
    simp only [List.mem_cons, List.mem_singleton, List.not_mem_nil, or_false] at hx
    rcases hx with h | h
    · rw [h, packNum_length]
    · rw [h, packNum_length]
  have hhead : ([packNum 32, packNum vs.length].flatten).length = 64 := flatten_length _ hall
  have hbody : ((vs.map packNum).flatten).length = 32 * vs.length := by
    rw [flatten_length]
    · simp
      omega
    · intro x hx
      simp only [List.mem_map] at hx
      obtain ⟨v, _, hv⟩ := hx
      rw [← hv, packNum_length]
  have hretlen : ret.length = 64 + 32 * vs.length := by
    rw [hret, List.length_append, hhead, hbody]
  have hn : vs.length < 2 ^ 256 := by
    have : (2 : Nat) ^ 63 < 2 ^ 256 := by norm_num
    omega
  have s0 : slice ret 0 32 = packNum 32 := by
    have := slice_flatten _ hall 0 _ rfl
    simp only [slice] at this ⊢
    rw [hret, List.drop_zero, List.take_append_of_le_length (by rw [hhead]; omega)]
    simpa using this
  have s1 : slice ret 32 64 = packNum vs.length := by
    have := slice_flatten _ hall 1 _ rfl
    simp only [slice] at this ⊢
    rw [hret, List.drop_append_of_le_length (by rw [hhead]; omega),
      List.take_append_of_le_length (by rw [List.length_drop, hhead])]
    simpa using this
  have hdrop : ret.drop 64 = (vs.map packNum).flatten := by
    rw [hret, List.drop_left' hhead]
  have hl : lengthPrefixPointsTo 0 ret = .ok (64, vs.length) := by
    simp only [lengthPrefixPointsTo]
    norm_num [s0, s1, bigEndian_packNum_32, bigEndian_packNum_nat _ hn, hretlen]
    norm_num at hlen
    rw [if_neg (by omega), if_neg (by omega)]
  have hu := unpackUints_words vs [] 0 rfl
  simp only [List.nil_append] at hu
  simp only [argumentsUnpack, unpackValuesLoop, toGoType]
  have h32 : ¬ (64 + 32 * vs.length < 32) := by omega
  norm_num [hretlen, hl, forEachUnpack, hdrop, hbody, hu, h32]


/-! ### The two queries -/

theorem balanceOf_pack (caller : Address) :
    balanceOfFunc.Pack [.addr caller] = .ok (balanceOfFunc.ID ++ LeftPadBytes caller.val 32) := by
  simp [Method.Pack, argumentsPack, packLoop, AbiType.pack, balanceOfFunc, isDynamicType,
    getTypeSize]

theorem getAmountsIn_pack (k : SwapConsts) (token : Address) (value : Int) :
    getAmounsInFunc.Pack [.uint value, .addrs [token, k.WETHAddress]] =
      .ok (getAmounsInFunc.ID ++
        [packNum value, packNum 64, packNum 2, LeftPadBytes token.val 32,
          LeftPadBytes k.WETHAddress.val 32].flatten) := by
  simp [Method.Pack, argumentsPack, packLoop, AbiType.pack, getAmounsInFunc, isDynamicType,
    getTypeSize]

/-- Function `GetTokenBalanceOf` does not panic on a well-formed state database: it
packs its input, and returns the result computed from the call's outcome
together with a state database whose world and revisions are those of
before. -/
theorem GetTokenBalanceOf_run (k : SwapConsts) (evm : EVM) (token caller : Address)
    (hwf : evm.StateDB.WellFormed) :
    ∃ input s2, balanceOfFunc.Pack [.addr caller] = .ok input ∧
      s2.world = evm.StateDB.world ∧ s2.validRevisions = evm.StateDB.validRevisions ∧
      GetTokenBalanceOf k evm token caller =
        some ((match (evm.SystemStaticCall evm.StateDB.world caller token input
                  k.MaxBalanceOfGas).err with
              | some err => (0, some err)
              | none =>
                if (evm.SystemStaticCall evm.StateDB.world caller token input
                    k.MaxBalanceOfGas).ret.length < 32 then
                  (0, some (if (evm.SystemStaticCall evm.StateDB.world caller token input
                    k.MaxBalanceOfGas).ret.length = 0 then .abiEmptyOutput
                    else .abiLengthInsufficient))
                else
                  (ReadInteger ((evm.SystemStaticCall evm.StateDB.world caller token input
                    k.MaxBalanceOfGas).ret.take 32), none)),
          { evm with StateDB := s2 }) := by
  obtain ⟨s1, s2, hrun, hrev, hw, hr, _⟩ := snapshot_run_revert evm.StateDB hwf
    (evm.SystemStaticCall evm.StateDB.world caller token
      (balanceOfFunc.ID ++ LeftPadBytes caller.val 32) k.MaxBalanceOfGas).trace
  refine ⟨_, s2, balanceOf_pack caller, hw, hr, ?_⟩
  have hworld : evm.StateDB.Snapshot.2.world = evm.StateDB.world := rfl
  simp only [GetTokenBalanceOf, balanceOf_pack, hworld, hrun, hrev, argumentsUnpack_uint256]
  cases (evm.SystemStaticCall evm.StateDB.world caller token
      (balanceOfFunc.ID ++ LeftPadBytes caller.val 32) k.MaxBalanceOfGas).err with
  | some e => rfl
  | none =>
    by_cases h : (evm.SystemStaticCall evm.StateDB.world caller token
      (balanceOfFunc.ID ++ LeftPadBytes caller.val 32) k.MaxBalanceOfGas).ret.length < 32
    · simp [h]
    · simp [h]

/-- Function `GetAmountsIn` does not panic on a well-formed state database: it packs
its input, and returns the result computed from the call's outcome together
with a state database whose world and revisions are those of before. -/
theorem GetAmountsIn_run (k : SwapConsts) (evm : EVM) (token caller : Address) (value : Int)
    (hwf : evm.StateDB.WellFormed) :
    ∃ input s2, getAmounsInFunc.Pack [.uint value, .addrs [token, k.WETHAddress]] = .ok input ∧
      s2.world = evm.StateDB.world ∧ s2.validRevisions = evm.StateDB.validRevisions ∧
      GetAmountsIn k evm token caller value =
        some ((match (evm.SystemStaticCall evm.StateDB.world caller k.RouterAddress input
                  k.MaxGetAmountsInGas).err with
              | some err => (0, some err)
              | none =>
                match argumentsUnpack [.uint256Slice]
                  (evm.SystemStaticCall evm.StateDB.world caller k.RouterAddress input
                    k.MaxGetAmountsInGas).ret with
                | .error err => (0, some err)
                | .ok [] => (0, some .invalidUnpackedData)
                | .ok (.uints [] :: _) => (0, some .invalidUnpackedData)
                | .ok (.uints (v0 :: _) :: _) => (v0, none)
                | .ok (_ :: _) => (0, some .invalidUnpackedData)),
          { evm with StateDB := s2 }) := by
  obtain ⟨s1, s2, hrun, hrev, hw, hr, _⟩ := snapshot_run_revert evm.StateDB hwf
    (evm.SystemStaticCall evm.StateDB.world caller k.RouterAddress
      (getAmounsInFunc.ID ++
        [packNum value, packNum 64, packNum 2, LeftPadBytes token.val 32,
          LeftPadBytes k.WETHAddress.val 32].flatten) k.MaxGetAmountsInGas).trace
  refine ⟨_, s2, getAmountsIn_pack k token value, hw, hr, ?_⟩
  have hworld : evm.StateDB.Snapshot.2.world = evm.StateDB.world := rfl
  simp only [GetAmountsIn, List.nil_append, getAmountsIn_pack, hworld, hrun, hrev]


theorem sampleStateDB_wellFormed : sampleStateDB.WellFormed := by
  simp [StateDB.WellFormed, sampleStateDB]

theorem bigEndian_lt (b : Bytes) : bigEndian b < 256 ^ b.length := by
  induction b using List.reverseRecOn with
  | nil => simp [bigEndian]
  | append_singleton l x ih =>
    rw [bigEndian_append_singleton, List.length_append, List.length_singleton, pow_succ]
    have hx : x.val < 256 := x.isLt
    omega

theorem paddedBigBytes_bigEndian (b : Bytes) : paddedBigBytes b.length (bigEndian b) = b := by
  induction b using List.reverseRecOn with
  | nil => rfl
  | append_singleton l x ih =>
    have hx : x.val < 256 := x.isLt
    have h1 : (bigEndian l * 256 + x.val) / 256 = bigEndian l := by omega
    have h2 : (bigEndian l * 256 + x.val) % 256 = x.val := by omega
    rw [bigEndian_append_singleton, List.length_append, List.length_singleton, paddedBigBytes]
    simp only [h1, h2, ih]

/-- A 32-byte word is the packing of the integer read from it. -/
theorem packNum_ReadInteger (w : Bytes) (hw : w.length = 32) :
    packNum (ReadInteger w) = w ∧ 0 ≤ ReadInteger w ∧ ReadInteger w < 2 ^ 256 := by
  have hlt : bigEndian w < 2 ^ 256 := by
    have := bigEndian_lt w
    rw [hw] at this
    have h3 : (256 : Nat) ^ 32 = 2 ^ 256 := by norm_num
    rw [h3] at this
    exact this
  have h0 : (0 : Int) ≤ (bigEndian w : Nat) := Int.natCast_nonneg _
  have h1 : ((bigEndian w : Nat) : Int) < 2 ^ 256 := by exact_mod_cast hlt
  refine ⟨?_, h0, h1⟩
  simp only [packNum, U256Bytes, ReadInteger]
  rw [Int.emod_eq_of_lt h0 h1, Int.toNat_natCast]
  have := paddedBigBytes_bigEndian w
  rw [hw] at this
  exact this

/-- C5: on a state database with a well-formed revision stack, whatever the
static call does (whatever it returns, whether it errors, whatever it writes),
`GetTokenBalanceOf` and `GetAmountsIn` return, and the balances, the storage
and the revision stack after the return are those of before the call. -/
theorem queries_restore_state (k : SwapConsts) (evm : EVM) (token holder : Address)
    (value : Int) (hwf : evm.StateDB.WellFormed) :
    (∃ r evm1, GetTokenBalanceOf k evm token holder = some (r, evm1) ∧
        evm1.StateDB.world = evm.StateDB.world ∧
        evm1.StateDB.validRevisions = evm.StateDB.validRevisions) ∧
      (∃ r evm1, GetAmountsIn k evm token holder value = some (r, evm1) ∧
        evm1.StateDB.world = evm.StateDB.world ∧
        evm1.StateDB.validRevisions = evm.StateDB.validRevisions) := by
  refine ⟨?_, ?_⟩
  · obtain ⟨input, s2, _, hw, hr, hres⟩ := GetTokenBalanceOf_run k evm token holder hwf
    exact ⟨_, _, hres, hw, hr⟩
  · obtain ⟨input, s2, _, hw, hr, hres⟩ := GetAmountsIn_run k evm token holder value hwf
    exact ⟨_, _, hres, hw, hr⟩

theorem queries_restore_state_witness :
    failingEVM.StateDB.WellFormed ∧
      (∃ r evm1, GetTokenBalanceOf sampleConsts failingEVM (sampleAddress 0xbb 2)
          (sampleAddress 0xaa 1) = some (r, evm1) ∧
        evm1.StateDB.world = failingEVM.StateDB.world ∧
        evm1.StateDB.validRevisions = failingEVM.StateDB.validRevisions) ∧
      (∃ r evm1, GetAmountsIn sampleConsts failingEVM (sampleAddress 0xbb 2)
          (sampleAddress 0xaa 1) 1000000000000000000 = some (r, evm1) ∧
        evm1.StateDB.world = failingEVM.StateDB.world ∧
        evm1.StateDB.validRevisions = failingEVM.StateDB.validRevisions) :=
  ⟨sampleStateDB_wellFormed,
    queries_restore_state sampleConsts failingEVM (sampleAddress 0xbb 2) (sampleAddress 0xaa 1)
      1000000000000000000 sampleStateDB_wellFormed⟩

/-- C6: when the Router call succeeds and its return data is the ABI encoding
of a non-empty list `a0 :: rest` of unsigned 256-bit integers (a Go byte
slice, so shorter than `2^63` bytes), `GetAmountsIn` returns `a0` and no
error. -/
theorem GetAmountsIn_first_amount (k : SwapConsts) (evm : EVM) (token holder : Address)
    (value a0 : Int) (rest : List Int) (hwf : evm.StateDB.WellFormed)
    (hrange : ∀ a ∈ a0 :: rest, 0 ≤ a ∧ a < 2 ^ 256)
    (hcall : ∀ input, getAmounsInFunc.Pack [.uint value, .addrs [token, k.WETHAddress]] =
        .ok input →
      (evm.SystemStaticCall evm.StateDB.world holder k.RouterAddress input
          k.MaxGetAmountsInGas).err = none ∧
        argumentsPack [.uint256Slice] [.uints (a0 :: rest)] =
          .ok (evm.SystemStaticCall evm.StateDB.world holder k.RouterAddress input
            k.MaxGetAmountsInGas).ret ∧
        (evm.SystemStaticCall evm.StateDB.world holder k.RouterAddress input
          k.MaxGetAmountsInGas).ret.length < 2 ^ 63) :
    ∃ evm1, GetAmountsIn k evm token holder value = some ((a0, none), evm1) := by
  obtain ⟨input, s2, hpack, _, _, hres⟩ := GetAmountsIn_run k evm token holder value hwf
  obtain ⟨herr, henc, hlen⟩ := hcall input hpack
  have hdec := argumentsUnpack_packed_uints (a0 :: rest) _ henc hlen
  have ha0 : a0 % 2 ^ 256 = a0 := by
    have := hrange a0 (List.mem_cons_self _ _)
    exact Int.emod_eq_of_lt this.1 this.2
  refine ⟨{ evm with StateDB := s2 }, ?_⟩
  rw [hres, herr, hdec]
  simp only [List.map_cons, ha0]

theorem GetAmountsIn_first_amount_witness :
    mockRouterEVM.StateDB.WellFormed ∧
      (∀ a ∈ [(500 : Int), 1000000000000000000], 0 ≤ a ∧ a < 2 ^ 256) ∧
      ∃ evm1, GetAmountsIn sampleConsts mockRouterEVM (sampleAddress 0xbb 2)
        (sampleAddress 0xaa 1) 1000000000000000000 = some ((500, none), evm1) :=
  ⟨sampleStateDB_wellFormed, by
    intro a ha
    simp only [List.mem_cons, List.mem_singleton, List.not_mem_nil, or_false] at ha
    rcases ha with h | h <;> rw [h] <;> norm_num,
    GetAmountsIn_first_amount sampleConsts mockRouterEVM (sampleAddress 0xbb 2)
      (sampleAddress 0xaa 1) 1000000000000000000 500 [1000000000000000000]
      sampleStateDB_wellFormed
      (by
        intro a ha
        simp only [List.mem_cons, List.mem_singleton, List.not_mem_nil, or_false] at ha
        rcases ha with h | h <;> rw [h] <;> norm_num)
      (fun _ _ => ⟨rfl, by
        simp [argumentsPack, packLoop, AbiType.pack, isDynamicType, getTypeSize, mockRouterEVM],
        by
          simp [mockRouterEVM, packNum_length]⟩)⟩

/-- C7: on a well-formed state database `GetAmountsIn` returns, and it
returns an error exactly when the Router call errors, or its return data does
not decode as `uint256[]`, or decodes to the empty list; with an error the
amount is 0, and an error of the call is the error returned. -/
theorem GetAmountsIn_error_iff (k : SwapConsts) (evm : EVM) (token holder : Address)
    (value : Int) (hwf : evm.StateDB.WellFormed) :
    ∃ input out r evm1,
      getAmounsInFunc.Pack [.uint value, .addrs [token, k.WETHAddress]] = .ok input ∧
      out = evm.SystemStaticCall evm.StateDB.world holder k.RouterAddress input
        k.MaxGetAmountsInGas ∧
      GetAmountsIn k evm token holder value = some (r, evm1) ∧
      (r.2 ≠ none ↔
        (out.err ≠ none ∨ (∃ e, argumentsUnpack [.uint256Slice] out.ret = .error e) ∨
          argumentsUnpack [.uint256Slice] out.ret = .ok [.uints []])) ∧
      (r.2 ≠ none → r.1 = 0) ∧
      (∀ e, out.err = some e → r.2 = some e) := by
  obtain ⟨input, s2, hpack, _, _, hres⟩ := GetAmountsIn_run k evm token holder value hwf
  refine ⟨input, _, _, _, hpack, rfl, hres, ?_⟩
  generalize evm.SystemStaticCall evm.StateDB.world holder k.RouterAddress input
    k.MaxGetAmountsInGas = out
  cases herr : out.err with
  | some e => simp
  | none =>
    cases hdec : argumentsUnpack [.uint256Slice] out.ret with
    | error e => simp
    | ok vals =>
      obtain ⟨vs, hvs⟩ := argumentsUnpack_uint256Slice _ _ hdec
      subst hvs
      cases vs with
      | nil => simp
      | cons v0 rest => simp

theorem GetAmountsIn_error_iff_witness :
    failingEVM.StateDB.WellFormed ∧
      ∃ input out r evm1,
        getAmounsInFunc.Pack
            [.uint 1000000000000000000,
              .addrs [sampleAddress 0xbb 2, sampleConsts.WETHAddress]] = .ok input ∧
        out = failingEVM.SystemStaticCall failingEVM.StateDB.world (sampleAddress 0xaa 1)
          sampleConsts.RouterAddress input sampleConsts.MaxGetAmountsInGas ∧
        GetAmountsIn sampleConsts failingEVM (sampleAddress 0xbb 2) (sampleAddress 0xaa 1)
          1000000000000000000 = some (r, evm1) ∧
        (r.2 ≠ none ↔
          (out.err ≠ none ∨ (∃ e, argumentsUnpack [.uint256Slice] out.ret = .error e) ∨
            argumentsUnpack [.uint256Slice] out.ret = .ok [.uints []])) ∧
        (r.2 ≠ none → r.1 = 0) ∧
        (∀ e, out.err = some e → r.2 = some e) :=
  ⟨sampleStateDB_wellFormed,
    GetAmountsIn_error_iff sampleConsts failingEVM (sampleAddress 0xbb 2) (sampleAddress 0xaa 1)
      1000000000000000000 sampleStateDB_wellFormed⟩

/-- C8: on a well-formed state database `GetTokenBalanceOf` returns, and it
returns an error exactly when the call to the token errors or its return data
does not decode as one `uint256`, which is when it is shorter than 32 bytes;
with an error the amount is 0 and a call error is returned as it is; without
one the amount is the unsigned 256-bit integer whose big-endian encoding is
the first 32-byte word of the return data. -/
theorem GetTokenBalanceOf_error_iff (k : SwapConsts) (evm : EVM) (token holder : Address)
    (hwf : evm.StateDB.WellFormed) :
    ∃ input out r evm1,
      balanceOfFunc.Pack [.addr holder] = .ok input ∧
      out = evm.SystemStaticCall evm.StateDB.world holder token input k.MaxBalanceOfGas ∧
      GetTokenBalanceOf k evm token holder = some (r, evm1) ∧
      (r.2 ≠ none ↔ (out.err ≠ none ∨ ∃ e, argumentsUnpack [.uint256] out.ret = .error e)) ∧
      ((∃ e, argumentsUnpack [.uint256] out.ret = .error e) ↔ out.ret.length < 32) ∧
      (r.2 ≠ none → r.1 = 0) ∧
      (r.2 = none →
        r.1 = ReadInteger (out.ret.take 32) ∧ packNum r.1 = out.ret.take 32 ∧
          0 ≤ r.1 ∧ r.1 < 2 ^ 256) ∧
      (∀ e, out.err = some e → r = (0, some e)) := by
  obtain ⟨input, s2, hpack, _, _, hres⟩ := GetTokenBalanceOf_run k evm token holder hwf
  refine ⟨input, _, _, _, hpack, rfl, hres, ?_⟩
  generalize evm.SystemStaticCall evm.StateDB.world holder token input k.MaxBalanceOfGas = out
  have hdec := argumentsUnpack_uint256 out.ret
  cases herr : out.err with
  | some e =>
    by_cases hlen : out.ret.length < 32
    · simp [hdec, hlen]
    · simp [hdec, hlen]
  | none =>
    by_cases hlen : out.ret.length < 32
    · simp [hdec, hlen]
    · have hw : (out.ret.take 32).length = 32 := by
        rw [List.length_take]
        omega
      have := packNum_ReadInteger _ hw
      have h3 := this.2.2
      norm_num at h3
      simp [hdec, hlen, this, h3]

theorem GetTokenBalanceOf_error_iff_witness :
    mockTokenEVM.StateDB.WellFormed ∧
      ∃ input out r evm1,
        balanceOfFunc.Pack [.addr (sampleAddress 0xaa 1)] = .ok input ∧
        out = mockTokenEVM.SystemStaticCall mockTokenEVM.StateDB.world (sampleAddress 0xaa 1)
          (sampleAddress 0xbb 2) input sampleConsts.MaxBalanceOfGas ∧
        GetTokenBalanceOf sampleConsts mockTokenEVM (sampleAddress 0xbb 2)
          (sampleAddress 0xaa 1) = some (r, evm1) ∧
        (r.2 ≠ none ↔ (out.err ≠ none ∨ ∃ e, argumentsUnpack [.uint256] out.ret = .error e)) ∧
        ((∃ e, argumentsUnpack [.uint256] out.ret = .error e) ↔ out.ret.length < 32) ∧
        (r.2 ≠ none → r.1 = 0) ∧
        (r.2 = none →
          r.1 = ReadInteger (out.ret.take 32) ∧ packNum r.1 = out.ret.take 32 ∧
            0 ≤ r.1 ∧ r.1 < 2 ^ 256) ∧
        (∀ e, out.err = some e → r = (0, some e)) :=
  ⟨sampleStateDB_wellFormed,
    GetTokenBalanceOf_error_iff sampleConsts mockTokenEVM (sampleAddress 0xbb 2)
      (sampleAddress 0xaa 1) sampleStateDB_wellFormed⟩

/-- C9: for all arguments, the payload of `NewETHSwapData` decodes, after its
4-byte method ID, to five values of which the third, the path, is exactly the
list of `token` and `WETHAddress`. -/
theorem NewETHSwapData_path (k : SwapConsts) (amountOut amountInMax : Int)
    (token toAddr : Address) (deadline : Int) :
    ∃ data v0 v1 v3 v4,
      NewETHSwapData k amountOut amountInMax token toAddr deadline = some data ∧
      argumentsUnpack swapFunc.Inputs (data.drop 4) =
        .ok [v0, v1, .addrs [token, k.WETHAddress], v3, v4] := by
  obtain ⟨data, hdata, hdec⟩ := NewETHSwapData_decodes k amountOut amountInMax token toAddr deadline
  exact ⟨data, _, _, _, _, hdata, hdec⟩

/-- C10: for amounts and a deadline in `0 ≤ v < 2^256`, decoding the payload
of `NewETHSwapData` (the same in both files) after its 4-byte method ID gives back the amounts, the
path of `token` and `WETHAddress`, the recipient and the deadline; and any
in-range arguments with the same payload are the same arguments. -/
theorem NewETHSwapData_roundtrip (k : SwapConsts) (amountOut amountInMax : Int)
    (token toAddr : Address) (deadline : Int)
    (hOut : 0 ≤ amountOut ∧ amountOut < 2 ^ 256)
    (hMax : 0 ≤ amountInMax ∧ amountInMax < 2 ^ 256)
    (hDeadline : 0 ≤ deadline ∧ deadline < 2 ^ 256) :
    (∃ data, NewETHSwapData k amountOut amountInMax token toAddr deadline = some data ∧
        SwapUtils.NewETHSwapData k amountOut amountInMax token toAddr deadline = some data ∧
        argumentsUnpack swapFunc.Inputs (data.drop 4) =
          .ok [.uint amountOut, .uint amountInMax, .addrs [token, k.WETHAddress],
            .addr toAddr, .uint deadline]) ∧
      ∀ (amountOut1 amountInMax1 : Int) (token1 toAddr1 : Address) (deadline1 : Int),
        0 ≤ amountOut1 ∧ amountOut1 < 2 ^ 256 →
        0 ≤ amountInMax1 ∧ amountInMax1 < 2 ^ 256 →
        0 ≤ deadline1 ∧ deadline1 < 2 ^ 256 →
        NewETHSwapData k amountOut1 amountInMax1 token1 toAddr1 deadline1 =
          NewETHSwapData k amountOut amountInMax token toAddr deadline →
        amountOut1 = amountOut ∧ amountInMax1 = amountInMax ∧ token1 = token ∧
          toAddr1 = toAddr ∧ deadline1 = deadline := by
  have hrt : ∀ (a m : Int) (t r : Address) (d : Int), 0 ≤ a ∧ a < 2 ^ 256 →
      0 ≤ m ∧ m < 2 ^ 256 → 0 ≤ d ∧ d < 2 ^ 256 →
      ∃ data, NewETHSwapData k a m t r d = some data ∧
        argumentsUnpack swapFunc.Inputs (data.drop 4) =
          .ok [.uint a, .uint m, .addrs [t, k.WETHAddress], .addr r, .uint d] := by
    intro a m t r d ha hm hd
    obtain ⟨data, hdata, hdec⟩ := NewETHSwapData_decodes k a m t r d
    rw [Int.emod_eq_of_lt ha.1 ha.2, Int.emod_eq_of_lt hm.1 hm.2,
      Int.emod_eq_of_lt hd.1 hd.2] at hdec
    exact ⟨data, hdata, hdec⟩
  refine ⟨?_, ?_⟩
  · obtain ⟨data, hdata, hdec⟩ := hrt _ _ _ _ _ hOut hMax hDeadline
    exact ⟨data, hdata, hdata, hdec⟩
  intro a1 m1 t1 r1 d1 ha hm hd heq
  obtain ⟨data, hdata, hdec⟩ := hrt _ _ _ _ _ hOut hMax hDeadline
  obtain ⟨data1, hdata1, hdec1⟩ := hrt a1 m1 t1 r1 d1 ha hm hd
  rw [hdata, hdata1] at heq
  have hd1 : data1 = data := Option.some.inj heq
  rw [hd1, hdec] at hdec1
  simp only [Except.ok.injEq, List.cons.injEq, AbiValue.uint.injEq, AbiValue.addrs.injEq,
    AbiValue.addr.injEq, and_true] at hdec1
  obtain ⟨h1, h2, h3, h4, h5⟩ := hdec1
  exact ⟨h1.symm, h2.symm, h3.symm, h4.symm, h5.symm⟩

theorem NewETHSwapData_roundtrip_witness :
    ((0 : Int) ≤ 1000000000000000000 ∧ (1000000000000000000 : Int) < 2 ^ 256) ∧
      ((0 : Int) ≤ 500 ∧ (500 : Int) < 2 ^ 256) ∧
      ((0 : Int) ≤ 1700000000 ∧ (1700000000 : Int) < 2 ^ 256) ∧
      ∃ data, NewETHSwapData sampleConsts 1000000000000000000 500 (sampleAddress 0xbb 2)
          (sampleAddress 0xaa 1) 1700000000 = some data ∧
        SwapUtils.NewETHSwapData sampleConsts 1000000000000000000 500 (sampleAddress 0xbb 2)
          (sampleAddress 0xaa 1) 1700000000 = some data ∧
        argumentsUnpack swapFunc.Inputs (data.drop 4) =
          .ok [.uint 1000000000000000000, .uint 500,
            .addrs [sampleAddress 0xbb 2, sampleConsts.WETHAddress],
            .addr (sampleAddress 0xaa 1), .uint 1700000000] :=
  ⟨by norm_num, by norm_num, by norm_num,
    (NewETHSwapData_roundtrip sampleConsts 1000000000000000000 500 (sampleAddress 0xbb 2)
      (sampleAddress 0xaa 1) 1700000000 (by norm_num) (by norm_num) (by norm_num)).1⟩


/-! ### The calls the two queries issue -/

theorem bigEndian_packNum_64 : bigEndian (packNum 64) = 64 :=
  bigEndian_packNum_nat 64 (by norm_num)

/-- Decoding five 32-byte words laid out as the arguments of `getAmountsIn`:
a number, the offset 64 of the path, then the path's length 2 and its two
elements. -/
theorem argumentsUnpack_getAmountsIn_layout (w0 w1 w2 w3 w4 : Bytes)
    (hall : ∀ x ∈ [w0, w1, w2, w3, w4], x.length = 32)
    (hoff : bigEndian w1 = 64) (hcount : bigEndian w2 = 2) :
    argumentsUnpack [.uint256, .addressSlice] [w0, w1, w2, w3, w4].flatten =
      .ok [.uint (ReadInteger w0), .addrs [BytesToAddress w3, BytesToAddress w4]] := by
  have hlen := flatten_length _ hall
  have s0 := slice_flatten _ hall 0 w0 rfl
  have s1 := slice_flatten _ hall 1 w1 rfl
  have s2 := slice_flatten _ hall 2 w2 rfl
  have hdrop := drop_flatten _ hall 3
  have hall2 : ∀ x ∈ [w3, w4], x.length = 32 := by
    intro x hx
    apply hall
    simp only [List.mem_cons, List.mem_singleton, List.not_mem_nil, or_false] at hx ⊢
    tauto
  have hlen2 := flatten_length _ hall2
  have t0 := slice_flatten _ hall2 0 w3 rfl
  have t1 := slice_flatten _ hall2 1 w4 rfl
  generalize [w0, w1, w2, w3, w4].flatten = data at *
  simp only [List.drop_succ_cons, List.drop_zero] at hdrop
  generalize [w3, w4].flatten = tail at *
  simp only [List.length_cons, List.length_nil] at hlen hlen2
  norm_num at hlen hlen2 s0 s1 s2 t0 t1 hdrop
  have hl : lengthPrefixPointsTo 32 data = .ok (96, 2) := by
    simp only [lengthPrefixPointsTo]
    norm_num [s1, hoff, hlen, s2, hcount]
  simp only [argumentsUnpack, unpackValuesLoop, toGoType]
  norm_num [hlen, s0, hl, forEachUnpack, hdrop, hlen2, unpackAddrs, t0, t1]

/-- Decoding one left-padded address word. -/
theorem argumentsUnpack_address_word (a : Address) :
    argumentsUnpack [.address] (LeftPadBytes a.val 32) = .ok [.addr a] := by
  have hlen := LeftPadBytes_address_length a
  have hs : slice (LeftPadBytes a.val 32) 0 32 = LeftPadBytes a.val 32 := by
    simp only [slice, List.drop_zero, Nat.sub_zero]
    exact List.take_of_length_le (le_of_eq hlen)
  simp only [argumentsUnpack, unpackValuesLoop, toGoType]
  norm_num [hlen, hs, BytesToAddress_LeftPadBytes]

/-- C11: for a requested amount in `0 ≤ value < 2^256`, on a well-formed
state database, the calldata `GetAmountsIn` sends is the `getAmountsIn`
method ID followed by bytes that decode to `value` and the path of `token`
and `WETHAddress`; the function hands back the error of the static call made
with caller `holder`, target `RouterAddress`, that calldata and gas
`MaxGetAmountsInGas`, and its result is the same for any EVM that answers
this one call the same way, whatever it answers to calls to other targets,
with other calldata or with another gas limit. -/
theorem GetAmountsIn_call (k : SwapConsts) (evm : EVM) (token holder : Address) (value : Int)
    (hwf : evm.StateDB.WellFormed) (hvalue : 0 ≤ value ∧ value < 2 ^ 256) :
    ∃ input,
      getAmounsInFunc.Pack [.uint value, .addrs [token, k.WETHAddress]] = .ok input ∧
      input.take 4 = [0x1f, 0x00, 0xca, 0x74] ∧
      argumentsUnpack getAmounsInFunc.Inputs (input.drop 4) =
        .ok [.uint value, .addrs [token, k.WETHAddress]] ∧
      (∀ e, (evm.SystemStaticCall evm.StateDB.world holder k.RouterAddress input
            k.MaxGetAmountsInGas).err = some e →
        ∃ evm1, GetAmountsIn k evm token holder value = some ((0, some e), evm1)) ∧
      (∀ evm2 : EVM, evm2.StateDB = evm.StateDB →
        evm2.SystemStaticCall evm.StateDB.world holder k.RouterAddress input
            k.MaxGetAmountsInGas =
          evm.SystemStaticCall evm.StateDB.world holder k.RouterAddress input
            k.MaxGetAmountsInGas →
        ∃ r evm1 evm3, GetAmountsIn k evm token holder value = some (r, evm1) ∧
          GetAmountsIn k evm2 token holder value = some (r, evm3)) := by
  have hid : getAmounsInFunc.ID.length = 4 := rfl
  have hall : ∀ x ∈ [packNum value, packNum 64, packNum 2, LeftPadBytes token.val 32,
      LeftPadBytes k.WETHAddress.val 32], x.length = 32 := by
    intro x hx
    simp only [List.mem_cons, List.mem_singleton, List.not_mem_nil, or_false] at hx
    rcases hx with h | h | h | h | h
    · rw [h, packNum_length]
    · rw [h, packNum_length]
    · rw [h, packNum_length]
    · rw [h, LeftPadBytes_address_length]
    · rw [h, LeftPadBytes_address_length]
  have hdec := argumentsUnpack_getAmountsIn_layout _ _ _ _ _ hall bigEndian_packNum_64
    bigEndian_packNum_2
  rw [ReadInteger_packNum_of_range value hvalue.1 hvalue.2, BytesToAddress_LeftPadBytes,
    BytesToAddress_LeftPadBytes] at hdec
  obtain ⟨input, s2, hpack, _, _, hres⟩ := GetAmountsIn_run k evm token holder value hwf
  have hinput := hpack
  rw [getAmountsIn_pack] at hinput
  have hinput1 := (Except.ok.inj hinput).symm
  refine ⟨input, hpack, ?_, ?_, ?_, ?_⟩
  · rw [hinput1, List.take_left' hid]
    rfl
  · rw [hinput1, List.drop_left' hid]
    exact hdec
  · intro e he
    refine ⟨{ evm with StateDB := s2 }, ?_⟩
    rw [hres, he]
  · intro evm2 hdb hsame
    have hwf2 : evm2.StateDB.WellFormed := by rw [hdb]; exact hwf
    obtain ⟨input2, s3, hpack2, _, _, hres2⟩ := GetAmountsIn_run k evm2 token holder value hwf2
    have h2 : input2 = input := by
      rw [hpack] at hpack2
      exact (Except.ok.inj hpack2).symm
    rw [h2, hdb, hsame] at hres2
    exact ⟨_, _, _, hres, hres2⟩

theorem GetAmountsIn_call_witness :
    (probeEVM sampleConsts.RouterAddress sampleConsts.MaxGetAmountsInGas).StateDB.WellFormed ∧
      ((0 : Int) ≤ 1000000000000000000 ∧ (1000000000000000000 : Int) < 2 ^ 256) ∧
      ∃ input,
        getAmounsInFunc.Pack
            [.uint 1000000000000000000,
              .addrs [sampleAddress 0xbb 2, sampleConsts.WETHAddress]] = .ok input ∧
        input.take 4 = [0x1f, 0x00, 0xca, 0x74] ∧
        argumentsUnpack getAmounsInFunc.Inputs (input.drop 4) =
          .ok [.uint 1000000000000000000,
            .addrs [sampleAddress 0xbb 2, sampleConsts.WETHAddress]] ∧
        ∃ evm1, GetAmountsIn sampleConsts
          (probeEVM sampleConsts.RouterAddress sampleConsts.MaxGetAmountsInGas)
          (sampleAddress 0xbb 2) (sampleAddress 0xaa 1) 1000000000000000000 =
            some ((0, some (.vm 7)), evm1) := by
  obtain ⟨input, h1, h2, h3, h4, _⟩ :=
    GetAmountsIn_call sampleConsts
      (probeEVM sampleConsts.RouterAddress sampleConsts.MaxGetAmountsInGas)
      (sampleAddress 0xbb 2) (sampleAddress 0xaa 1) 1000000000000000000
      sampleStateDB_wellFormed (by norm_num)
  exact ⟨sampleStateDB_wellFormed, by norm_num, input, h1, h2, h3, h4 (.vm 7) (by simp [probeEVM])⟩

/-- C12: on a well-formed state database, the calldata `GetTokenBalanceOf`
sends is the `balanceOf` method ID followed by bytes that decode to the one
address `holder`; the function hands back the error of the static call made
with caller `holder`, target `token`, that calldata and gas
`MaxBalanceOfGas`, and its result is the same for any EVM that answers this
one call the same way, whatever it answers to other calls. -/
theorem GetTokenBalanceOf_call (k : SwapConsts) (evm : EVM) (token holder : Address)
    (hwf : evm.StateDB.WellFormed) :
    ∃ input,
      balanceOfFunc.Pack [.addr holder] = .ok input ∧
      input.take 4 = [0x70, 0xa0, 0x82, 0x31] ∧
      argumentsUnpack balanceOfFunc.Inputs (input.drop 4) = .ok [.addr holder] ∧
      (∀ e, (evm.SystemStaticCall evm.StateDB.world holder token input
            k.MaxBalanceOfGas).err = some e →
        ∃ evm1, GetTokenBalanceOf k evm token holder = some ((0, some e), evm1)) ∧
      (∀ evm2 : EVM, evm2.StateDB = evm.StateDB →
        evm2.SystemStaticCall evm.StateDB.world holder token input k.MaxBalanceOfGas =
          evm.SystemStaticCall evm.StateDB.world holder token input k.MaxBalanceOfGas →
        ∃ r evm1 evm3, GetTokenBalanceOf k evm token holder = some (r, evm1) ∧
          GetTokenBalanceOf k evm2 token holder = some (r, evm3)) := by
  have hid : balanceOfFunc.ID.length = 4 := rfl
  obtain ⟨input, s2, hpack, _, _, hres⟩ := GetTokenBalanceOf_run k evm token holder hwf
  have hinput := hpack
  rw [balanceOf_pack] at hinput
  have hinput1 := (Except.ok.inj hinput).symm
  refine ⟨input, hpack, ?_, ?_, ?_, ?_⟩
  · rw [hinput1, List.take_left' hid]
    rfl
  · rw [hinput1, List.drop_left' hid]
    exact argumentsUnpack_address_word holder
  · intro e he
    refine ⟨{ evm with StateDB := s2 }, ?_⟩
    rw [hres, he]
  · intro evm2 hdb hsame
    have hwf2 : evm2.StateDB.WellFormed := by rw [hdb]; exact hwf
    obtain ⟨input2, s3, hpack2, _, _, hres2⟩ := GetTokenBalanceOf_run k evm2 token holder hwf2
    have h2 : input2 = input := by
      rw [hpack] at hpack2
      exact (Except.ok.inj hpack2).symm
    rw [h2, hdb, hsame] at hres2
    exact ⟨_, _, _, hres, hres2⟩

theorem GetTokenBalanceOf_call_witness :
    (probeEVM (sampleAddress 0xbb 2) sampleConsts.MaxBalanceOfGas).StateDB.WellFormed ∧
      ∃ input,
        balanceOfFunc.Pack [.addr (sampleAddress 0xaa 1)] = .ok input ∧
        input.take 4 = [0x70, 0xa0, 0x82, 0x31] ∧
        argumentsUnpack balanceOfFunc.Inputs (input.drop 4) = .ok [.addr (sampleAddress 0xaa 1)] ∧
        ∃ evm1, GetTokenBalanceOf sampleConsts
          (probeEVM (sampleAddress 0xbb 2) sampleConsts.MaxBalanceOfGas)
          (sampleAddress 0xbb 2) (sampleAddress 0xaa 1) = some ((0, some (.vm 7)), evm1) := by
  obtain ⟨input, h1, h2, h3, h4, _⟩ :=
    GetTokenBalanceOf_call sampleConsts
      (probeEVM (sampleAddress 0xbb 2) sampleConsts.MaxBalanceOfGas)
      (sampleAddress 0xbb 2) (sampleAddress 0xaa 1) sampleStateDB_wellFormed
  exact ⟨sampleStateDB_wellFormed, input, h1, h2, h3, h4 (.vm 7) (by simp [probeEVM])⟩


/-! ### Development genesis -/

theorem BytesToHash_slotZero : BytesToHash [0] = slotZero := by decide

theorem BytesToHash_slotOne : BytesToHash [1] = slotOne := by decide

theorem slotOne_ne_slotZero : slotOne ≠ slotZero := by decide

theorem BytesToHash_address (a : Address) :
    (BytesToHash a.val).val = List.replicate 12 0 ++ a.val := by
  have h := a.property
  simp only [BytesToHash]
  rw [setBytes_of_le 32 a.val (by omega), h]

/-- The Router storage of `core/swaps.go`, a map literal. -/
theorem routerStorage_literal (f w : Hash) (key : Hash) :
    (GoMap.literal [(BytesToHash [0], f), (BytesToHash [1], w)]).get key =
      if key = slotOne then some w else if key = slotZero then some f else none := by
  simp [GoMap.literal, GoMap.set, GoMap.empty, BytesToHash_slotZero, BytesToHash_slotOne]

/-- The Router storage of `core/swap_utils.go`, two assignments. -/
theorem routerStorage_assigned (f w : Hash) (key : Hash) :
    (((GoMap.empty : GoMap Hash Hash).set (BytesToHash [0]) f).set (BytesToHash [1]) w).get key =
      if key = slotOne then some w else if key = slotZero then some f else none := by
  simp [GoMap.set, GoMap.empty, BytesToHash_slotZero, BytesToHash_slotOne]

/-- C13: when the four well-known addresses are pairwise distinct, in the
genesis of either variant the entry allocated at `RouterAddress` has a storage
whose slot 0 holds `FactoryAddress` left-padded to 32 bytes, whose slot 1
holds `WETHAddress` left-padded, and which has no other entry; the two words
decode to the addresses at which the same genesis allocates the Factory and
the WrappedNative code. -/
theorem genesis_router_storage (k : SwapConsts) (g : Genesis)
    (hd : [k.FactoryAddress, k.WETHAddress, k.RouterAddress, k.GasTokenBinderAddress].Nodup)
    (hg : g = DefaulSwapDevGenesisBlock k ∨ g = SwapUtils.DefaulSwapDevGenesisBlock k) :
    ∃ router factory weth w0 w1,
      g.Alloc.get k.RouterAddress = some router ∧
      router.Storage.get slotZero = some w0 ∧
      w0.val = List.replicate 12 0 ++ k.FactoryAddress.val ∧
      router.Storage.get slotOne = some w1 ∧
      w1.val = List.replicate 12 0 ++ k.WETHAddress.val ∧
      (∀ key, key ≠ slotZero → key ≠ slotOne → router.Storage.get key = none) ∧
      BytesToAddress w0.val = k.FactoryAddress ∧
      BytesToAddress w1.val = k.WETHAddress ∧
      g.Alloc.get k.FactoryAddress = some factory ∧ factory.Code = k.FactoryCodes ∧
      g.Alloc.get k.WETHAddress = some weth ∧ weth.Code = k.WETHCodes := by
  simp only [List.nodup_cons, List.mem_cons, List.mem_singleton, List.not_mem_nil, or_false,
    not_or, List.nodup_nil, and_true, not_false_eq_true] at hd
  obtain ⟨⟨hfw, hfr, hfb⟩, ⟨hwr, hwb⟩, hrb⟩ := hd
  have h0 := BytesToHash_address k.FactoryAddress
  have h1 := BytesToHash_address k.WETHAddress
  have hne := slotOne_ne_slotZero
  rcases hg with hg | hg
  · subst hg
    refine ⟨{ Balance := some 0, Code := k.RouterCodes,
              Storage := GoMap.literal
                [(BytesToHash [0], BytesToHash k.FactoryAddress.val),
                  (BytesToHash [1], BytesToHash k.WETHAddress.val)] },
      { Balance := some 0, Code := k.FactoryCodes },
      { Balance := some 0, Code := k.WETHCodes },
      BytesToHash k.FactoryAddress.val, BytesToHash k.WETHAddress.val, ?_, ?_, h0, ?_, h1, ?_,
      BytesToAddress_leftPadded _ _ h0, BytesToAddress_leftPadded _ _ h1, ?_, rfl, ?_, rfl⟩
    · simp [DefaulSwapDevGenesisBlock, GoMap.literal, GoMap.set, hrb]
    · simp [routerStorage_literal, hne.symm]
    · simp [routerStorage_literal]
    · intro key hk0 hk1
      simp [routerStorage_literal, hk0, hk1]
    · simp [DefaulSwapDevGenesisBlock, GoMap.literal, GoMap.set, hfw, hfr, hfb]
    · simp [DefaulSwapDevGenesisBlock, GoMap.literal, GoMap.set, hwr, hwb]
  · subst hg
    refine ⟨{ Balance := some 0, Code := k.RouterCodes,
              Storage := ((GoMap.empty : GoMap Hash Hash).set (BytesToHash [0])
                (BytesToHash k.FactoryAddress.val)).set (BytesToHash [1])
                (BytesToHash k.WETHAddress.val) },
      { Balance := some 0, Code := k.FactoryCodes },
      { Balance := some 0, Code := k.WETHCodes },
      BytesToHash k.FactoryAddress.val, BytesToHash k.WETHAddress.val, ?_, ?_, h0, ?_, h1, ?_,
      BytesToAddress_leftPadded _ _ h0, BytesToAddress_leftPadded _ _ h1, ?_, rfl, ?_, rfl⟩
    · simp [SwapUtils.DefaulSwapDevGenesisBlock, GoMap.literal, GoMap.set, hrb]
    · simp [routerStorage_assigned, hne.symm]
    · simp [routerStorage_assigned]
    · intro key hk0 hk1
      simp [routerStorage_assigned, hk0, hk1]
    · simp [SwapUtils.DefaulSwapDevGenesisBlock, GoMap.literal, GoMap.set, hfw, hfr, hfb]
    · simp [SwapUtils.DefaulSwapDevGenesisBlock, GoMap.literal, GoMap.set, hwr, hwb]

theorem genesis_router_storage_witness :
    [sampleConsts.FactoryAddress, sampleConsts.WETHAddress, sampleConsts.RouterAddress,
        sampleConsts.GasTokenBinderAddress].Nodup ∧
      ∃ router factory weth w0 w1,
        (SwapUtils.DefaulSwapDevGenesisBlock sampleConsts).Alloc.get sampleConsts.RouterAddress =
          some router ∧
        router.Storage.get slotZero = some w0 ∧
        w0.val = List.replicate 12 0 ++ sampleConsts.FactoryAddress.val ∧
        router.Storage.get slotOne = some w1 ∧
        w1.val = List.replicate 12 0 ++ sampleConsts.WETHAddress.val ∧
        (∀ key, key ≠ slotZero → key ≠ slotOne → router.Storage.get key = none) ∧
        BytesToAddress w0.val = sampleConsts.FactoryAddress ∧
        BytesToAddress w1.val = sampleConsts.WETHAddress ∧
        (SwapUtils.DefaulSwapDevGenesisBlock sampleConsts).Alloc.get sampleConsts.FactoryAddress =
          some factory ∧
        factory.Code = sampleConsts.FactoryCodes ∧
        (SwapUtils.DefaulSwapDevGenesisBlock sampleConsts).Alloc.get sampleConsts.WETHAddress =
          some weth ∧
        weth.Code = sampleConsts.WETHCodes :=
  ⟨by decide,
    genesis_router_storage sampleConsts (SwapUtils.DefaulSwapDevGenesisBlock sampleConsts)
      (by decide) (Or.inr rfl)⟩

/-- C14: `GetBindToken` and `GetGasToken` derive the same storage key, decode
the same token address from the word the Binder holds under it, and return
opposite booleans: `GetBindToken` returns true exactly when the decoded
address is the all-zero address. -/
theorem GetBindToken_negates_GetGasToken (k : SwapConsts) (st : State) (c : Address) :
    SwapUtils.storageKey c = storageKey c ∧
      (SwapUtils.GetBindToken k st c).1 =
        BytesToAddress (st.GetState k.GasTokenBinderAddress (storageKey c)).val ∧
      (SwapUtils.GetBindToken k st c).1 = (GetGasToken k st c).1 ∧
      (SwapUtils.GetBindToken k st c).2 = !(GetGasToken k st c).2 ∧
      ((SwapUtils.GetBindToken k st c).2 = true ↔
        (SwapUtils.GetBindToken k st c).1 = zeroAddress) := by
  refine ⟨rfl, rfl, rfl, ?_, ?_⟩
  · simp only [SwapUtils.GetBindToken, GetGasToken, Bool.not_not]
    rfl
  · exact bytesEqual_zero_iff _

theorem genesis_alloc_wellKnown (k : SwapConsts) (a : Address)
    (ha : a ∈ [k.FactoryAddress, k.WETHAddress, k.RouterAddress, k.GasTokenBinderAddress]) :
    ∃ account, (DefaulSwapDevGenesisBlock k).Alloc.get a = some account ∧
      (SwapUtils.DefaulSwapDevGenesisBlock k).Alloc.get a = some account ∧
      account.Balance = some 0 := by
  have hst : GoMap.literal
      [(BytesToHash [0], BytesToHash k.FactoryAddress.val),
        (BytesToHash [1], BytesToHash k.WETHAddress.val)] =
      ((GoMap.empty : GoMap Hash Hash).set (BytesToHash [0])
        (BytesToHash k.FactoryAddress.val)).set (BytesToHash [1])
        (BytesToHash k.WETHAddress.val) := rfl
  simp only [List.mem_cons, List.mem_singleton, List.not_mem_nil, or_false] at ha
  by_cases h4 : a = k.GasTokenBinderAddress
  · subst h4
    exact ⟨{ Balance := some 0, Code := k.GasTokenBinderCodes },
      by simp [DefaulSwapDevGenesisBlock, GoMap.literal, GoMap.set],
      by simp [SwapUtils.DefaulSwapDevGenesisBlock, GoMap.literal, GoMap.set], rfl⟩
  · by_cases h3 : a = k.RouterAddress
    · subst h3
      exact ⟨{ Balance := some 0, Code := k.RouterCodes,
               Storage := GoMap.literal
                 [(BytesToHash [0], BytesToHash k.FactoryAddress.val),
                   (BytesToHash [1], BytesToHash k.WETHAddress.val)] },
        by simp [DefaulSwapDevGenesisBlock, GoMap.literal, GoMap.set, h4],
        by
          rw [hst]
          simp [SwapUtils.DefaulSwapDevGenesisBlock, GoMap.literal, GoMap.set, h4], rfl⟩
    · by_cases h2 : a = k.WETHAddress
      · subst h2
        exact ⟨{ Balance := some 0, Code := k.WETHCodes },
          by simp [DefaulSwapDevGenesisBlock, GoMap.literal, GoMap.set, h4, h3],
          by simp [SwapUtils.DefaulSwapDevGenesisBlock, GoMap.literal, GoMap.set, h4, h3], rfl⟩
      · have h1 : a = k.FactoryAddress := by tauto
        subst h1
        exact ⟨{ Balance := some 0, Code := k.FactoryCodes },
          by simp [DefaulSwapDevGenesisBlock, GoMap.literal, GoMap.set, h4, h3, h2],
          by simp [SwapUtils.DefaulSwapDevGenesisBlock, GoMap.literal, GoMap.set, h4, h3, h2],
          rfl⟩

theorem genesis_alloc_other (k : SwapConsts) (a : Address)
    (h0 : a ≠ faucet) (h1 : a ≠ faucet1) (h2 : a ≠ faucet2) :
    (DefaulSwapDevGenesisBlock k).Alloc.get a = (SwapUtils.DefaulSwapDevGenesisBlock k).Alloc.get a := by
  have hst : GoMap.literal
      [(BytesToHash [0], BytesToHash k.FactoryAddress.val),
        (BytesToHash [1], BytesToHash k.WETHAddress.val)] =
      ((GoMap.empty : GoMap Hash Hash).set (BytesToHash [0])
        (BytesToHash k.FactoryAddress.val)).set (BytesToHash [1])
        (BytesToHash k.WETHAddress.val) := rfl
  have f0 : a ≠ BytesToAddress
      [0xf1, 0x65, 0x8c, 0x60, 0x87, 0x08, 0x17, 0x26, 0x55, 0xa8, 0xe7, 0x0a, 0x16, 0x24, 0xc2,
        0x9f, 0x95, 0x6e, 0xe6, 0x3d] := h0
  have f1 : a ≠ BytesToAddress
      [0x99, 0xf5, 0xa6, 0x20, 0x38, 0x4a, 0x5a, 0x53, 0x03, 0x20, 0xfc, 0x0b, 0xe2, 0xaf, 0x3b,
        0x69, 0xd7, 0x63, 0xed, 0x4f] := h1
  have f2 : a ≠ BytesToAddress
      [0xd8, 0x3c, 0x37, 0xed, 0xf2, 0x5d, 0xce, 0x7f, 0xd9, 0x65, 0xa8, 0xe7, 0xaa, 0x0f, 0x22,
        0xf5, 0xbb, 0xfa, 0x91, 0xca] := h2
  simp only [DefaulSwapDevGenesisBlock, SwapUtils.DefaulSwapDevGenesisBlock, GoMap.literal,
    List.foldl_cons, List.foldl_nil, GoMap.set, GoMap.empty, f0, f1, f2, if_false]


/-- C15: when no well-known address is a faucet address, the two genesis
variants differ in the chain ID (1130, 14298360), the Clique period (3, 5),
the extra data and the faucet entries (three faucets of `10^27` wei, one
faucet of `10^23` wei); every other field of the chain configuration, among
them all fork-activation blocks and the Clique epoch 30000, the gas limit
10485760, the base fee, the difficulty 0 and the allocation at every address
that is not a faucet, among them the four well-known addresses, each with a
zero balance, are equal. -/
theorem genesis_variants_compared (k : SwapConsts)
    (hf : ∀ a ∈ [k.FactoryAddress, k.WETHAddress, k.RouterAddress, k.GasTokenBinderAddress],
      a ≠ faucet ∧ a ≠ faucet1 ∧ a ≠ faucet2) :
    ((DefaulSwapDevGenesisBlock k).Config.ChainID = some 1130 ∧
        (SwapUtils.DefaulSwapDevGenesisBlock k).Config.ChainID = some 14298360) ∧
      ((DefaulSwapDevGenesisBlock k).Config.Clique = some (CliqueConfig.mk 3 30000) ∧
        (SwapUtils.DefaulSwapDevGenesisBlock k).Config.Clique =
          some (CliqueConfig.mk 5 30000)) ∧
      (DefaulSwapDevGenesisBlock k).ExtraData ≠ (SwapUtils.DefaulSwapDevGenesisBlock k).ExtraData ∧
      ((DefaulSwapDevGenesisBlock k).Alloc.get faucet =
          some { Balance := some 1000000000000000000000000000 } ∧
        (DefaulSwapDevGenesisBlock k).Alloc.get faucet1 =
          some { Balance := some 1000000000000000000000000000 } ∧
        (DefaulSwapDevGenesisBlock k).Alloc.get faucet2 =
          some { Balance := some 1000000000000000000000000000 } ∧
        (SwapUtils.DefaulSwapDevGenesisBlock k).Alloc.get faucet =
          some { Balance := some 100000000000000000000000 } ∧
        (SwapUtils.DefaulSwapDevGenesisBlock k).Alloc.get faucet1 = none ∧
        (SwapUtils.DefaulSwapDevGenesisBlock k).Alloc.get faucet2 = none) ∧
      ({ (DefaulSwapDevGenesisBlock k).Config with ChainID := none, Clique := none } =
        { (SwapUtils.DefaulSwapDevGenesisBlock k).Config with
          ChainID := none, Clique := none }) ∧
      (DefaulSwapDevGenesisBlock k).Config.forkBlocks =
        (SwapUtils.DefaulSwapDevGenesisBlock k).Config.forkBlocks ∧
      ((DefaulSwapDevGenesisBlock k).GasLimit = 10485760 ∧
        (SwapUtils.DefaulSwapDevGenesisBlock k).GasLimit = 10485760) ∧
      ((DefaulSwapDevGenesisBlock k).BaseFee = some k.InitialBaseFee ∧
        (SwapUtils.DefaulSwapDevGenesisBlock k).BaseFee = some k.InitialBaseFee) ∧
      ((DefaulSwapDevGenesisBlock k).Difficulty = some 0 ∧
        (SwapUtils.DefaulSwapDevGenesisBlock k).Difficulty = some 0) ∧
      (∀ a ∈ [k.FactoryAddress, k.WETHAddress, k.RouterAddress, k.GasTokenBinderAddress],
        ∃ account, (DefaulSwapDevGenesisBlock k).Alloc.get a = some account ∧
          (SwapUtils.DefaulSwapDevGenesisBlock k).Alloc.get a = some account ∧
          account.Balance = some 0) ∧
      (∀ a, a ≠ faucet → a ≠ faucet1 → a ≠ faucet2 →
        (DefaulSwapDevGenesisBlock k).Alloc.get a =
          (SwapUtils.DefaulSwapDevGenesisBlock k).Alloc.get a) := by
  have hF := hf k.FactoryAddress (by simp)
  have hW := hf k.WETHAddress (by simp)
  have hR := hf k.RouterAddress (by simp)
  have hB := hf k.GasTokenBinderAddress (by simp)
  have h01 : faucet ≠ faucet1 := by decide
  have h02 : faucet ≠ faucet2 := by decide
  have h12 : faucet1 ≠ faucet2 := by decide
  refine ⟨⟨rfl, rfl⟩, ⟨rfl, rfl⟩,
    by simp [DefaulSwapDevGenesisBlock, SwapUtils.DefaulSwapDevGenesisBlock],
    ⟨?_, ?_, ?_, ?_, ?_, ?_⟩, rfl, rfl, ⟨rfl, rfl⟩,
    ⟨rfl, rfl⟩, ⟨rfl, rfl⟩, genesis_alloc_wellKnown k, genesis_alloc_other k⟩
  · have e : (DefaulSwapDevGenesisBlock k).Alloc.get faucet =
        if faucet = k.GasTokenBinderAddress then
          some { Balance := some 0, Code := k.GasTokenBinderCodes }
        else if faucet = k.RouterAddress then
          some { Balance := some 0, Code := k.RouterCodes,
                 Storage := GoMap.literal
                   [(BytesToHash [0], BytesToHash k.FactoryAddress.val),
                     (BytesToHash [1], BytesToHash k.WETHAddress.val)] }
        else if faucet = k.WETHAddress then some { Balance := some 0, Code := k.WETHCodes }
        else if faucet = k.FactoryAddress then some { Balance := some 0, Code := k.FactoryCodes }
        else if faucet = faucet2 then some { Balance := some 1000000000000000000000000000 }
        else if faucet = faucet1 then some { Balance := some 1000000000000000000000000000 }
        else if faucet = faucet then some { Balance := some 1000000000000000000000000000 }
        else none := rfl
    rw [e, if_neg hB.1.symm, if_neg hR.1.symm, if_neg hW.1.symm, if_neg hF.1.symm, if_neg h02,
      if_neg h01, if_pos rfl]
  · have e : (DefaulSwapDevGenesisBlock k).Alloc.get faucet1 =
        if faucet1 = k.GasTokenBinderAddress then
          some { Balance := some 0, Code := k.GasTokenBinderCodes }
        else if faucet1 = k.RouterAddress then
          some { Balance := some 0, Code := k.RouterCodes,
                 Storage := GoMap.literal
                   [(BytesToHash [0], BytesToHash k.FactoryAddress.val),
                     (BytesToHash [1], BytesToHash k.WETHAddress.val)] }
        else if faucet1 = k.WETHAddress then some { Balance := some 0, Code := k.WETHCodes }
        else if faucet1 = k.FactoryAddress then some { Balance := some 0, Code := k.FactoryCodes }
        else if faucet1 = faucet2 then some { Balance := some 1000000000000000000000000000 }
        else if faucet1 = faucet1 then some { Balance := some 1000000000000000000000000000 }
        else if faucet1 = faucet then some { Balance := some 1000000000000000000000000000 }
        else none := rfl
    rw [e, if_neg hB.2.1.symm, if_neg hR.2.1.symm, if_neg hW.2.1.symm, if_neg hF.2.1.symm,
      if_neg h12, if_pos rfl]
  · have e : (DefaulSwapDevGenesisBlock k).Alloc.get faucet2 =
        if faucet2 = k.GasTokenBinderAddress then
          some { Balance := some 0, Code := k.GasTokenBinderCodes }
        else if faucet2 = k.RouterAddress then
          some { Balance := some 0, Code := k.RouterCodes,
                 Storage := GoMap.literal
                   [(BytesToHash [0], BytesToHash k.FactoryAddress.val),
                     (BytesToHash [1], BytesToHash k.WETHAddress.val)] }
        else if faucet2 = k.WETHAddress then some { Balance := some 0, Code := k.WETHCodes }
        else if faucet2 = k.FactoryAddress then some { Balance := some 0, Code := k.FactoryCodes }
        else if faucet2 = faucet2 then some { Balance := some 1000000000000000000000000000 }
        else if faucet2 = faucet1 then some { Balance := some 1000000000000000000000000000 }
        else if faucet2 = faucet then some { Balance := some 1000000000000000000000000000 }
        else none := rfl
    rw [e, if_neg hB.2.2.symm, if_neg hR.2.2.symm, if_neg hW.2.2.symm, if_neg hF.2.2.symm,
      if_pos rfl]
  · have e : (SwapUtils.DefaulSwapDevGenesisBlock k).Alloc.get faucet =
        if faucet = k.GasTokenBinderAddress then
          some { Balance := some 0, Code := k.GasTokenBinderCodes }
        else if faucet = k.RouterAddress then
          some { Balance := some 0, Code := k.RouterCodes,
                 Storage := GoMap.literal
                   [(BytesToHash [0], BytesToHash k.FactoryAddress.val),
                     (BytesToHash [1], BytesToHash k.WETHAddress.val)] }
        else if faucet = k.WETHAddress then some { Balance := some 0, Code := k.WETHCodes }
        else if faucet = k.FactoryAddress then some { Balance := some 0, Code := k.FactoryCodes }
        else if faucet = faucet then some { Balance := some 100000000000000000000000 }
        else none := rfl
    rw [e, if_neg hB.1.symm, if_neg hR.1.symm, if_neg hW.1.symm, if_neg hF.1.symm, if_pos rfl]
  · have e : (SwapUtils.DefaulSwapDevGenesisBlock k).Alloc.get faucet1 =
        if faucet1 = k.GasTokenBinderAddress then
          some { Balance := some 0, Code := k.GasTokenBinderCodes }
        else if faucet1 = k.RouterAddress then
          some { Balance := some 0, Code := k.RouterCodes,
                 Storage := GoMap.literal
                   [(BytesToHash [0], BytesToHash k.FactoryAddress.val),
                     (BytesToHash [1], BytesToHash k.WETHAddress.val)] }
        else if faucet1 = k.WETHAddress then some { Balance := some 0, Code := k.WETHCodes }
        else if faucet1 = k.FactoryAddress then some { Balance := some 0, Code := k.FactoryCodes }
        else if faucet1 = faucet then some { Balance := some 100000000000000000000000 }
        else none := rfl
    rw [e, if_neg hB.2.1.symm, if_neg hR.2.1.symm, if_neg hW.2.1.symm, if_neg hF.2.1.symm,
      if_neg h01.symm]
  · have e : (SwapUtils.DefaulSwapDevGenesisBlock k).Alloc.get faucet2 =
        if faucet2 = k.GasTokenBinderAddress then
          some { Balance := some 0, Code := k.GasTokenBinderCodes }
        else if faucet2 = k.RouterAddress then
          some { Balance := some 0, Code := k.RouterCodes,
                 Storage := GoMap.literal
                   [(BytesToHash [0], BytesToHash k.FactoryAddress.val),
                     (BytesToHash [1], BytesToHash k.WETHAddress.val)] }
        else if faucet2 = k.WETHAddress then some { Balance := some 0, Code := k.WETHCodes }
        else if faucet2 = k.FactoryAddress then some { Balance := some 0, Code := k.FactoryCodes }
        else if faucet2 = faucet then some { Balance := some 100000000000000000000000 }
        else none := rfl
    rw [e, if_neg hB.2.2.symm, if_neg hR.2.2.symm, if_neg hW.2.2.symm, if_neg hF.2.2.symm,
      if_neg h02.symm]


theorem genesis_variants_compared_witness :
    (∀ a ∈ [sampleConsts.FactoryAddress, sampleConsts.WETHAddress, sampleConsts.RouterAddress,
        sampleConsts.GasTokenBinderAddress], a ≠ faucet ∧ a ≠ faucet1 ∧ a ≠ faucet2) ∧
      (DefaulSwapDevGenesisBlock sampleConsts).ExtraData ≠
        (SwapUtils.DefaulSwapDevGenesisBlock sampleConsts).ExtraData ∧
      (DefaulSwapDevGenesisBlock sampleConsts).Alloc.get faucet1 =
        some { Balance := some 1000000000000000000000000000 } ∧
      (SwapUtils.DefaulSwapDevGenesisBlock sampleConsts).Alloc.get faucet1 = none :=
  ⟨by decide,
    (genesis_variants_compared sampleConsts (by decide)).2.2.1,
    (genesis_variants_compared sampleConsts (by decide)).2.2.2.1.2.1,
    (genesis_variants_compared sampleConsts (by decide)).2.2.2.1.2.2.2.2.1⟩

/-- C16 (as stated, refuted): in the genesis of either variant `ShanghaiBlock`
is `nil`, so not every fork-activation block number of the chain
configuration is zero. -/
theorem genesis_forkBlocks_not_all_zero :
    (DefaulSwapDevGenesisBlock sampleConsts).Config.ShanghaiBlock = none ∧
      (SwapUtils.DefaulSwapDevGenesisBlock sampleConsts).Config.ShanghaiBlock = none ∧
      ¬ (∀ b ∈ (DefaulSwapDevGenesisBlock sampleConsts).Config.forkBlocks, b = some 0) ∧
      ¬ (∀ b ∈ (SwapUtils.DefaulSwapDevGenesisBlock sampleConsts).Config.forkBlocks,
        b = some 0) := by
  decide

/-- C16 (amended): in the chain configuration of the genesis of either
variant the fork-activation block numbers of Homestead, EIP150, EIP155,
EIP158, Byzantium, Constantinople, Petersburg, Istanbul, MuirGlacier, Berlin
and London are zero; those of the DAO fork, ArrowGlacier, GrayGlacier,
MergeNetsplit, Shanghai and Cancun are `nil`. -/
theorem genesis_forkBlocks (k : SwapConsts) (g : Genesis)
    (hg : g = DefaulSwapDevGenesisBlock k ∨ g = SwapUtils.DefaulSwapDevGenesisBlock k) :
    (g.Config.HomesteadBlock = some 0 ∧ g.Config.EIP150Block = some 0 ∧
        g.Config.EIP155Block = some 0 ∧ g.Config.EIP158Block = some 0 ∧
        g.Config.ByzantiumBlock = some 0 ∧ g.Config.ConstantinopleBlock = some 0 ∧
        g.Config.PetersburgBlock = some 0 ∧ g.Config.IstanbulBlock = some 0 ∧
        g.Config.MuirGlacierBlock = some 0 ∧ g.Config.BerlinBlock = some 0 ∧
        g.Config.LondonBlock = some 0) ∧
      (g.Config.DAOForkBlock = none ∧ g.Config.ArrowGlacierBlock = none ∧
        g.Config.GrayGlacierBlock = none ∧ g.Config.MergeNetsplitBlock = none ∧
        g.Config.ShanghaiBlock = none ∧ g.Config.CancunBlock = none) := by
  rcases hg with hg | hg
  · subst hg
    exact ⟨⟨rfl, rfl, rfl, rfl, rfl, rfl, rfl, rfl, rfl, rfl, rfl⟩, rfl, rfl, rfl, rfl, rfl, rfl⟩
  · subst hg
    exact ⟨⟨rfl, rfl, rfl, rfl, rfl, rfl, rfl, rfl, rfl, rfl, rfl⟩, rfl, rfl, rfl, rfl, rfl, rfl⟩

theorem genesis_forkBlocks_witness :
    (DefaulSwapDevGenesisBlock sampleConsts = DefaulSwapDevGenesisBlock sampleConsts ∨
        DefaulSwapDevGenesisBlock sampleConsts =
          SwapUtils.DefaulSwapDevGenesisBlock sampleConsts) ∧
      (DefaulSwapDevGenesisBlock sampleConsts).Config.LondonBlock = some 0 ∧
      (DefaulSwapDevGenesisBlock sampleConsts).Config.CancunBlock = none :=
  ⟨Or.inl rfl,
    (genesis_forkBlocks sampleConsts (DefaulSwapDevGenesisBlock sampleConsts)
      (Or.inl rfl)).1.2.2.2.2.2.2.2.2.2.2,
    (genesis_forkBlocks sampleConsts (DefaulSwapDevGenesisBlock sampleConsts)
      (Or.inl rfl)).2.2.2.2.2.2⟩

/-- C17: for amounts and a deadline in `0 ≤ v < 2^256`, the payload of
`NewETHSwapData` (the same in both files) is 260 bytes: the method ID
`4a25d94a` followed by eight 32-byte words, which are the big-endian words of
`amountOut`, `amountInMax` and 160, the recipient behind twelve zero bytes,
the big-endian words of `deadline` and 2, and `token` and `WETHAddress`, each
behind twelve zero bytes. -/
theorem NewETHSwapData_layout (k : SwapConsts) (amountOut amountInMax : Int)
    (token toAddr : Address) (deadline : Int)
    (hOut : 0 ≤ amountOut ∧ amountOut < 2 ^ 256)
    (hMax : 0 ≤ amountInMax ∧ amountInMax < 2 ^ 256)
    (hDeadline : 0 ≤ deadline ∧ deadline < 2 ^ 256) :
    ∃ data w0 w1 w2 w4 w5,
      NewETHSwapData k amountOut amountInMax token toAddr deadline = some data ∧
      SwapUtils.NewETHSwapData k amountOut amountInMax token toAddr deadline = some data ∧
      data.length = 260 ∧
      data = [0x4a, 0x25, 0xd9, 0x4a] ++ w0 ++ w1 ++ w2 ++
        (List.replicate 12 0 ++ toAddr.val) ++ w4 ++ w5 ++
        (List.replicate 12 0 ++ token.val) ++ (List.replicate 12 0 ++ k.WETHAddress.val) ∧
      (w0.length = 32 ∧ ReadInteger w0 = amountOut) ∧
      (w1.length = 32 ∧ ReadInteger w1 = amountInMax) ∧
      (w2.length = 32 ∧ ReadInteger w2 = 160) ∧
      (w4.length = 32 ∧ ReadInteger w4 = deadline) ∧
      (w5.length = 32 ∧ ReadInteger w5 = 2) := by
  have hdata := NewETHSwapData_words k amountOut amountInMax token toAddr deadline
  have hall : ∀ x ∈ [packNum amountOut, packNum amountInMax, packNum 160,
      LeftPadBytes toAddr.val 32, packNum deadline, packNum 2, LeftPadBytes token.val 32,
      LeftPadBytes k.WETHAddress.val 32], x.length = 32 := by
    intro x hx
    simp only [List.mem_cons, List.mem_singleton, List.not_mem_nil, or_false] at hx
    rcases hx with h | h | h | h | h | h | h | h
    · rw [h, packNum_length]
    · rw [h, packNum_length]
    · rw [h, packNum_length]
    · rw [h, LeftPadBytes_address_length]
    · rw [h, packNum_length]
    · rw [h, packNum_length]
    · rw [h, LeftPadBytes_address_length]
    · rw [h, LeftPadBytes_address_length]
  have hlen := flatten_length _ hall
  refine ⟨_, packNum amountOut, packNum amountInMax, packNum 160, packNum deadline, packNum 2,
    hdata, hdata, ?_, ?_,
    ⟨packNum_length _, ReadInteger_packNum_of_range _ hOut.1 hOut.2⟩,
    ⟨packNum_length _, ReadInteger_packNum_of_range _ hMax.1 hMax.2⟩,
    ⟨packNum_length _, ReadInteger_packNum_of_range 160 (by norm_num) (by norm_num)⟩,
    ⟨packNum_length _, ReadInteger_packNum_of_range _ hDeadline.1 hDeadline.2⟩,
    ⟨packNum_length _, ReadInteger_packNum_of_range 2 (by norm_num) (by norm_num)⟩⟩
  · rw [List.length_append, hlen]
    simp only [swapFunc, List.length_cons, List.length_nil]
  · simp only [List.flatten_cons, List.flatten_nil, List.append_nil, LeftPadBytes_address,
      swapFunc, List.append_assoc]

theorem NewETHSwapData_layout_witness :
    ((0 : Int) ≤ 1000000000000000000 ∧ (1000000000000000000 : Int) < 2 ^ 256) ∧
      ((0 : Int) ≤ 500 ∧ (500 : Int) < 2 ^ 256) ∧
      ((0 : Int) ≤ 1700000000 ∧ (1700000000 : Int) < 2 ^ 256) ∧
      ∃ data, NewETHSwapData sampleConsts 1000000000000000000 500 (sampleAddress 0xbb 2)
          (sampleAddress 0xaa 1) 1700000000 = some data ∧ data.length = 260 := by
  obtain ⟨data, _, _, _, _, _, h1, _, h2, _⟩ :=
    NewETHSwapData_layout sampleConsts 1000000000000000000 500 (sampleAddress 0xbb 2)
      (sampleAddress 0xaa 1) 1700000000 (by norm_num) (by norm_num) (by norm_num)
  exact ⟨by norm_num, by norm_num, by norm_num, data, h1, h2⟩

/-- C18: the result of `GetGasToken` depends only on the low-order 20 bytes
of the word the Binder holds at the account's key: two states whose words
there agree on bytes 12..31 give the same result, and a word whose bytes
12..31 are zero resolves to the all-zero address and `false`, whatever its
12 high-order bytes are. -/
theorem GetGasToken_low_bytes_only (k : SwapConsts) (st1 st2 : State) (c : Address)
    (h : (st1.GetState k.GasTokenBinderAddress (storageKey c)).val.drop 12 =
      (st2.GetState k.GasTokenBinderAddress (storageKey c)).val.drop 12) :
    GetGasToken k st1 c = GetGasToken k st2 c ∧
      ∀ st : State,
        (st.GetState k.GasTokenBinderAddress (storageKey c)).val.drop 12 = List.replicate 20 0 →
        GetGasToken k st c = (zeroAddress, false) := by
  have hfst : ∀ st : State, (GetGasToken k st c).1.val =
      (st.GetState k.GasTokenBinderAddress (storageKey c)).val.drop 12 := by
    intro st
    rw [GetGasToken_fst, BytesToAddress_hash]
  refine ⟨?_, ?_⟩
  · have h1 : (GetGasToken k st1 c).1 = (GetGasToken k st2 c).1 := by
      apply Subtype.ext
      rw [hfst, hfst, h]
    have h2 : (GetGasToken k st1 c).2 = (GetGasToken k st2 c).2 := by
      rw [GetGasToken_snd, GetGasToken_snd, h1]
    exact Prod.ext h1 h2
  · intro st hz
    have h1 : (GetGasToken k st c).1 = zeroAddress := by
      apply Subtype.ext
      rw [hfst, hz]
      rfl
    have h2 : (GetGasToken k st c).2 = false := by
      rw [GetGasToken_snd, h1]
      rfl
    exact Prod.ext h1 h2

theorem GetGasToken_low_bytes_only_witness :
    (highBytesState.GetState sampleConsts.GasTokenBinderAddress
          (storageKey (sampleAddress 0xaa 1))).val.drop 12 =
        (zeroState.GetState sampleConsts.GasTokenBinderAddress
          (storageKey (sampleAddress 0xaa 1))).val.drop 12 ∧
      (highBytesState.GetState sampleConsts.GasTokenBinderAddress
          (storageKey (sampleAddress 0xaa 1))).val.take 12 = List.replicate 12 0xff ∧
      GetGasToken sampleConsts highBytesState (sampleAddress 0xaa 1) =
        GetGasToken sampleConsts zeroState (sampleAddress 0xaa 1) ∧
      GetGasToken sampleConsts highBytesState (sampleAddress 0xaa 1) = (zeroAddress, false) :=
  ⟨by decide, by decide,
    (GetGasToken_low_bytes_only sampleConsts highBytesState zeroState (sampleAddress 0xaa 1)
      (by decide)).1,
    (GetGasToken_low_bytes_only sampleConsts highBytesState zeroState (sampleAddress 0xaa 1)
      (by decide)).2 highBytesState (by decide)⟩

end Swaps
